import Mathlib

/-!
Shallow embedding of the datepalmbay-api SNS-review subsystem
(hashtag extraction, query planning, relevance matching, review
collection, keyword/sentiment analysis, and the AI-summary resolution
chain) together with proofs about the spec's claims.

JavaScript strings are modelled as Lean `String`s and all string
operations used by the source (`includes`, `toLowerCase`, `trim`,
`replace`, `join`, `Set` de-duplication) are given explicit executable
models on the underlying character lists.  Numbers that the source
manipulates as floats are modelled exactly: integer quantities as `Nat`,
dictionary weights and ratios as `ℚ`, and `Math.round` as the half-up
rounding `round : ℚ → ℤ` (`⌊x + 1/2⌋`), which agrees with JavaScript's
`Math.round` on the exactly-representable values arising here.
-/

namespace DatepalmBay

/-- Boolean prefix test on character lists. -/
def listIsPrefix : List Char → List Char → Bool
  | [], _ => true
  | _ :: _, [] => false
  | a :: as, b :: bs => a == b && listIsPrefix as bs

/-- Boolean infix (contiguous substring) test on character lists. -/
def listIsInfixB : List Char → List Char → Bool
  | sub, [] => listIsPrefix sub []
  | sub, c :: t => listIsPrefix sub (c :: t) || listIsInfixB sub t

/-- Model of JavaScript `str.includes(sub)`: `sub` occurs as a contiguous
substring of `str`. -/
def jsIncludes (s sub : String) : Bool :=
  listIsInfixB sub.data s.data

/-- Model of JavaScript `toLowerCase` restricted to the characters this
code base manipulates (ASCII letters; Korean syllables have no case). -/
def jsLowerChar (c : Char) : Char :=
  if 'A' ≤ c ∧ c ≤ 'Z' then Char.ofNat (c.toNat + 32) else c

/-- Lower-case every character of a string (model of `toLowerCase`). -/
def jsToLower (s : String) : String :=
  ⟨s.data.map jsLowerChar⟩

/-- Model of JavaScript `str.trim()` (strip leading and trailing
whitespace). -/
def jsTrim (s : String) : String :=
  ⟨((s.data.dropWhile Char.isWhitespace).reverse.dropWhile Char.isWhitespace).reverse⟩

/-- Model of `str.replace(c, '')` for a single-character pattern: remove
the first occurrence of `c`, keep everything else. -/
def jsReplaceFirst (target : Char) : List Char → List Char
  | [] => []
  | c :: cs => if c = target then cs else c :: jsReplaceFirst target cs

/-- Model of `[...new Set(l)]`: de-duplicate keeping the first occurrence
of each element, preserving order (JavaScript `Set` iteration order is
insertion order).  `seen` accumulates the elements already emitted. -/
def dedupFirstAux {α : Type} [DecidableEq α] (seen : List α) : List α → List α
  | [] => []
  | x :: xs => if x ∈ seen then dedupFirstAux seen xs else x :: dedupFirstAux (x :: seen) xs

/-- De-duplicate a list keeping first occurrences (model of
`[...new Set(l)]`). -/
def dedupFirst {α : Type} [DecidableEq α] (l : List α) : List α :=
  dedupFirstAux [] l

theorem mem_dedupFirstAux {α : Type} [DecidableEq α] (seen : List α) (l : List α) (a : α) :
    a ∈ dedupFirstAux seen l ↔ a ∈ l ∧ a ∉ seen := by
  induction l generalizing seen with
  | nil => simp [dedupFirstAux]
  | cons x xs ih =>
    by_cases hx : x ∈ seen
    · simp only [dedupFirstAux, if_pos hx, ih, List.mem_cons]
      constructor
      · rintro ⟨h1, h2⟩; exact ⟨Or.inr h1, h2⟩
      · rintro ⟨h1 | h1, h2⟩
        · exact absurd (h1 ▸ hx) h2
        · exact ⟨h1, h2⟩
    · simp only [dedupFirstAux, if_neg hx, List.mem_cons, ih, not_or]
      constructor
      · rintro (rfl | ⟨h1, h2, h3⟩)
        · exact ⟨Or.inl rfl, hx⟩
        · exact ⟨Or.inr h1, h3⟩
      · rintro ⟨rfl | h1, h2⟩
        · exact Or.inl rfl
        · by_cases hxa : a = x
          · exact Or.inl hxa
          · exact Or.inr ⟨h1, hxa, h2⟩

theorem dedupFirstAux_sublist {α : Type} [DecidableEq α] (seen : List α) (l : List α) :
    (dedupFirstAux seen l).Sublist l := by
  induction l generalizing seen with
  | nil => simp [dedupFirstAux]
  | cons x xs ih =>
    by_cases hx : x ∈ seen
    · simp only [dedupFirstAux, if_pos hx]
      exact (ih seen).cons x
    · simp only [dedupFirstAux, if_neg hx]
      exact (ih (x :: seen)).cons₂ x

theorem dedupFirstAux_nodup {α : Type} [DecidableEq α] (seen : List α) (l : List α) :
    (dedupFirstAux seen l).Nodup := by
  induction l generalizing seen with
  | nil => simp [dedupFirstAux]
  | cons x xs ih =>
    by_cases hx : x ∈ seen
    · simpa only [dedupFirstAux, if_pos hx] using ih seen
    · simp only [dedupFirstAux, if_neg hx, List.nodup_cons]
      refine ⟨fun hmem => ?_, ih (x :: seen)⟩
      exact ((mem_dedupFirstAux _ _ _).1 hmem).2 (List.mem_cons_self x seen)

theorem dedupFirstAux_eq_self {α : Type} [DecidableEq α] (seen : List α) (l : List α)
    (hnd : l.Nodup) (hdisj : ∀ x ∈ l, x ∉ seen) : dedupFirstAux seen l = l := by
  induction l generalizing seen with
  | nil => simp [dedupFirstAux]
  | cons x xs ih =>
    have hx : x ∉ seen := hdisj x (List.mem_cons_self x xs)
    simp only [dedupFirstAux, if_neg hx]
    have hnd' := (List.nodup_cons.1 hnd)
    congr 1
    refine ih (x :: seen) hnd'.2 (fun y hy => ?_)
    simp only [List.mem_cons, not_or]
    exact ⟨fun h => hnd'.1 (h ▸ hy), hdisj y (List.mem_cons_of_mem x hy)⟩

theorem dedupFirst_nodup {α : Type} [DecidableEq α] (l : List α) : (dedupFirst l).Nodup :=
  dedupFirstAux_nodup [] l

theorem dedupFirst_sublist {α : Type} [DecidableEq α] (l : List α) : (dedupFirst l).Sublist l :=
  dedupFirstAux_sublist [] l

theorem mem_dedupFirst {α : Type} [DecidableEq α] (l : List α) (a : α) :
    a ∈ dedupFirst l ↔ a ∈ l := by
  simp [dedupFirst, mem_dedupFirstAux]

theorem dedupFirst_eq_self {α : Type} [DecidableEq α] (l : List α) (hnd : l.Nodup) :
    dedupFirst l = l :=
  dedupFirstAux_eq_self [] l hnd (by simp)

/-- Generic preservation of an invariant by a left fold. -/
theorem foldl_preserves {σ α : Type} (P : σ → Prop) (f : σ → α → σ)
    (h : ∀ s a, P s → P (f s a)) : ∀ (l : List α) (s : σ), P s → P (l.foldl f s)
  | [], _, hs => hs
  | a :: l, s, hs => foldl_preserves P f h l (f s a) (h s a hs)

/-! ## Product records

Shape of the product records iterated during collection
(`productsRef` in `snsReviewCollector.js`).  `detailInfo` is the
base64-encoded rich-text blob; decoding (`Buffer.from(_, 'base64')`) is
an external standard-library collaborator and is passed in as an
abstract `decode` function returning `none` on failure. -/

structure Product where
  productCode : String
  productName : String
  productSaleStatus : Bool
  detailInfo : Option String
  productCategory : String := ""
  deriving Repr, DecidableEq

/-! ## HashtagExtractor (`youtube.js`, `extractHashtagsFromProduct`) -/

/-- Character class of the hashtag pattern `#([a-zA-Z0-9가-힣_]+)`. -/
def isHashtagChar (c : Char) : Bool :=
  ('a' ≤ c && c ≤ 'z') || ('A' ≤ c && c ≤ 'Z') || ('0' ≤ c && c ≤ '9') ||
    (c == '_') || ('가' ≤ c && c ≤ '힣')

/-- Fuel-indexed scanner behind `hashtagMatches`; the fuel is an upper
bound on the number of characters still to be consumed, so structural
recursion on it is exact once `fuel ≥ l.length`. -/
def hashtagMatchesAux : Nat → List Char → List (List Char)
  | 0, _ => []
  | _ + 1, [] => []
  | fuel + 1, c :: rest =>
    if c = '#' then
      let run := rest.takeWhile isHashtagChar
      if run.length = 0 then hashtagMatchesAux fuel rest
      else ('#' :: run) :: hashtagMatchesAux fuel (rest.drop run.length)
    else hashtagMatchesAux fuel rest

/-- All matches of the global regular expression `/#([a-zA-Z0-9가-힣_]+)/g`
in left-to-right order.  Each match is the full matched token including
the leading `#` (as returned by `String.prototype.match` with the `g`
flag); the tag body is the maximal nonempty run of hashtag characters
after the `#`. -/
def hashtagMatches (l : List Char) : List (List Char) :=
  hashtagMatchesAux l.length l

/-- The token list `matches.map(tag => tag.replace('#', '').trim())`. -/
def extractedHashtagTokens (html : String) : List String :=
  (hashtagMatches html.data).map (fun m => jsTrim ⟨jsReplaceFirst '#' m⟩)

/-- Model of `extractHashtagsFromProduct`: decode `detailInfo`, extract
hashtag tokens, strip the leading `#`, and de-duplicate with a
JavaScript `Set` (exact-string, first occurrence kept).  Missing
`detailInfo` and decode failure both yield `[]`. -/
def extractHashtagsFromProduct (decode : String → Option String) (p : Product) : List String :=
  match p.detailInfo with
  | none => []
  | some blob =>
    match decode blob with
    | none => []
    | some decodedHtml => dedupFirst (extractedHashtagTokens decodedHtml)

/-! ## QueryPlanner (`youtube.js`, `generateHashtagSearchQueries`) -/

/-- Model of `combo.join(' ')`. -/
def joinSpace : List String → String
  | [] => ""
  | [s] => s
  | s :: rest => s ++ " " ++ joinSpace rest

/-- Model of `getCombinations(arr, size)`: all size-`size` combinations of
`arr` in the source's order (index-increasing, head first).  The source
is never called with `size = 0`; the `0` case mirrors what the
`size === arr.length` shortcut would return for an empty array. -/
def getCombinations (arr : List String) : Nat → List (List String)
  | 0 => if arr.length = 0 then [arr] else []
  | 1 => arr.map (fun item => [item])
  | n + 2 =>
    if n + 2 = arr.length then [arr]
    else
      (List.range (arr.length + 1 - (n + 2))).flatMap
        (fun i => (getCombinations (arr.drop (i + 1)) (n + 1)).map
          (fun tail => arr.getD i "" :: tail))

/-- Model of `generateHashtagSearchQueries`: one query per combination of
the hashtags, iterating combination size from `hashtags.length` down
to 1, each joined by spaces with a trailing `" review"`; if no hashtag
queries were produced, the two product-name fallback queries; finally
`Set` de-duplication keeping first occurrences. -/
def generateHashtagSearchQueries (hashtags : List String) (productName : String) : List String :=
  let queries : List String :=
    if hashtags.length > 0 then
      (List.range hashtags.length).flatMap
        (fun k =>
          (getCombinations hashtags (hashtags.length - k)).map
            (fun combo => joinSpace combo ++ " review"))
    else []
  let queries :=
    if queries.length = 0 then [productName ++ " review", productName ++ " 리뷰"]
    else queries
  dedupFirst queries

/-! ## MatchScorer and review collection (`snsReviewCollector.js`, `instagram.js`)

The per-platform search adapters are external collaborators; they are
passed in as functions from a product to the list of raw candidates
(the "external result set").  Wall-clock fields (`createdAt`,
timestamps) and the courtesy inter-call delays are not modelled; the
try/catch isolation of external-call failures corresponds to the
adapter returning `[]` for a product. -/

/-- Raw YouTube search candidate (shape produced by `searchProductReviews`). -/
structure Video where
  videoId : String
  title : String
  description : String
  channelId : String := ""
  channelTitle : String := ""
  publishedAt : String := ""
  thumbnailUrl : String := ""
  viewCount : Nat := 0
  likeCount : Nat := 0
  deriving Repr, DecidableEq

/-- Raw Instagram post candidate (shape produced by `searchProductPosts`). -/
structure InstaPost where
  postId : String
  caption : String
  username : String
  permalink : String := ""
  thumbnailUrl : String := ""
  mediaUrl : String := ""
  timestamp : String := ""
  mediaType : String := ""
  likeCount : Nat := 0
  commentsCount : Nat := 0
  deriving Repr, DecidableEq

/-- One entry of a stored review's `matchedProducts`. -/
structure MatchedProduct where
  productCode : String
  matchScore : Nat
  deriving Repr, DecidableEq

/-- A stored SNS review.  `createdAt` (a wall-clock ISO timestamp) is
omitted from the model. -/
structure SnsReview where
  id : Nat
  platform : String
  externalId : String
  contentUrl : String
  thumbnailUrl : String
  title : String
  description : String
  authorName : String
  authorId : String
  publishedAt : String
  viewCount : Nat
  likeCount : Nat
  commentCount : Nat := 0
  mediaType : String := ""
  status : String
  matchedProducts : List MatchedProduct
  deriving Repr, DecidableEq

/-- Mutable collector state: the shared review array plus the id counter. -/
structure CollectorState where
  snsReviews : List SnsReview
  nextReviewId : Nat
  deriving Repr, DecidableEq

/-- Per-product collection cap (`MAX_REVIEWS_PER_PRODUCT`). -/
def MAX_REVIEWS_PER_PRODUCT : Nat := 50

/-- Exact integer model of `Math.round((num / den) * 100)` for naturals:
`⌊100 * num / den + 1/2⌋` computed as `(200 * num + den) / (2 * den)`. -/
def jsRoundPct (num den : Nat) : Nat :=
  (200 * num + den) / (2 * den)

/-- The YouTube hashtag-overlap matching policy, inlined in
`collectYouTubeReviews`: if any product hashtag occurs in the candidate
text, the score is the rounded percentage of matched hashtags; otherwise
a verbatim product-name hit scores a fixed 80; otherwise the candidate
is rejected (`none`). -/
def youtubeMatchResult (hashtags : List String) (searchText productNameLower : String) :
    Option Nat :=
  let matchedHashtags :=
    if hashtags.length > 0 then
      hashtags.filter (fun tag => jsIncludes searchText (jsToLower tag))
    else []
  if matchedHashtags.length > 0 then
    some (jsRoundPct matchedHashtags.length hashtags.length)
  else if jsIncludes searchText productNameLower then some 80
  else none

/-- Processing of one YouTube search result inside the per-product loop.
State: collector state, per-product collected count, total collected
count.  Once the per-product cap is reached every later iteration is a
no-op, which is observationally the source's `break`. -/
def collectVideoStep (product : Product) (hashtags : List String)
    (acc : CollectorState × Nat × Nat) (video : Video) : CollectorState × Nat × Nat :=
  let (st, productCount, total) := acc
  if productCount ≥ MAX_REVIEWS_PER_PRODUCT then acc
  else if st.snsReviews.any (fun r => r.platform == "YOUTUBE" && r.externalId == video.videoId)
  then acc
  else
    let searchText := jsToLower (video.title ++ " " ++ video.description)
    let productNameLower := jsToLower (jsTrim product.productName)
    match youtubeMatchResult hashtags searchText productNameLower with
    | none => acc
    | some matchScore =>
      let newReview : SnsReview :=
        { id := st.nextReviewId
          platform := "YOUTUBE"
          externalId := video.videoId
          contentUrl := "https://www.youtube.com/watch?v=" ++ video.videoId
          thumbnailUrl := video.thumbnailUrl
          title := video.title
          description := video.description
          authorName := video.channelTitle
          authorId := video.channelId
          publishedAt := video.publishedAt
          viewCount := video.viewCount
          likeCount := video.likeCount
          status := "PENDING"
          matchedProducts := [{ productCode := product.productCode, matchScore := matchScore }] }
      ({ snsReviews := st.snsReviews ++ [newReview], nextReviewId := st.nextReviewId + 1 },
        productCount + 1, total + 1)

/-- The body of the per-product loop of `collectYouTubeReviews`. -/
def collectProductYouTube (decode : String → Option String) (videosOf : Product → List Video)
    (acc : CollectorState × Nat) (product : Product) : CollectorState × Nat :=
  let hashtags := extractHashtagsFromProduct decode product
  let r := (videosOf product).foldl (collectVideoStep product hashtags) (acc.1, 0, acc.2)
  (r.1, r.2.2)

/-- Model of `collectYouTubeReviews`: iterate the active products,
collecting matched, not-yet-stored videos; returns the new state and the
number of collected reviews. -/
def collectYouTubeReviews (decode : String → Option String) (videosOf : Product → List Video)
    (products : List Product) (st : CollectorState) : CollectorState × Nat :=
  let activeProducts := products.filter (fun p => p.productSaleStatus == true)
  activeProducts.foldl (collectProductYouTube decode videosOf) (st, 0)

/-- The review/recommendation keyword list of the Instagram policy. -/
def reviewKeywords : List String :=
  ["리뷰", "review", "후기", "추천", "recommend", "좋아요", "love", "amazing", "best"]

/-- Model of `str.replace(/\s+/g, '')`: delete every whitespace character. -/
def jsRemoveWhitespace (s : String) : String :=
  ⟨s.data.filter (fun c => !c.isWhitespace)⟩

/-- Model of `instagram.js` `calculateMatchScore`: weighted sum of
hashtag matches (20 each, capped at 60), a whitespace-insensitive
product-name hit (30) and a review-keyword hit (10). -/
def calculateMatchScore (post : InstaPost) (product : Product) (hashtags : List String) : Nat :=
  let caption := jsToLower post.caption
  let matchedHashtags := hashtags.filter (fun tag =>
    jsIncludes caption ("#" ++ jsToLower tag) || jsIncludes caption (jsToLower tag))
  let score := min (matchedHashtags.length * 20) 60
  let score := score + (if jsIncludes caption (jsRemoveWhitespace (jsToLower product.productName))
    then 30 else 0)
  let score := score + (if reviewKeywords.any (fun kw => jsIncludes caption (jsToLower kw))
    then 10 else 0)
  score

/-- Processing of one Instagram post inside the per-product loop:
cap check, duplicate check, then acceptance iff the match score reaches
the minimum threshold 20. -/
def collectPostStep (product : Product) (hashtags : List String)
    (acc : CollectorState × Nat × Nat) (post : InstaPost) : CollectorState × Nat × Nat :=
  let (st, productCount, total) := acc
  if productCount ≥ MAX_REVIEWS_PER_PRODUCT then acc
  else if st.snsReviews.any (fun r => r.platform == "INSTAGRAM" && r.externalId == post.postId)
  then acc
  else
    let matchScore := calculateMatchScore post product hashtags
    if matchScore ≥ 20 then
      let newReview : SnsReview :=
        { id := st.nextReviewId
          platform := "INSTAGRAM"
          externalId := post.postId
          contentUrl := post.permalink
          thumbnailUrl := if post.thumbnailUrl ≠ "" then post.thumbnailUrl else post.mediaUrl
          title := "@" ++ post.username ++ "의 Instagram 게시물"
          description := post.caption
          authorName := post.username
          authorId := post.username
          publishedAt := post.timestamp
          viewCount := 0
          likeCount := post.likeCount
          commentCount := post.commentsCount
          mediaType := post.mediaType
          status := "PENDING"
          matchedProducts := [{ productCode := product.productCode, matchScore := matchScore }] }
      ({ snsReviews := st.snsReviews ++ [newReview], nextReviewId := st.nextReviewId + 1 },
        productCount + 1, total + 1)
    else acc

/-- The body of the per-product loop of `collectInstagramReviews`. -/
def collectProductInstagram (decode : String → Option String) (postsOf : Product → List InstaPost)
    (acc : CollectorState × Nat) (product : Product) : CollectorState × Nat :=
  let hashtags := extractHashtagsFromProduct decode product
  let r := (postsOf product).foldl (collectPostStep product hashtags) (acc.1, 0, acc.2)
  (r.1, r.2.2)

/-- Model of `collectInstagramReviews`.  `connected` is the result of the
external `checkConnection`; when the API is not connected the function
returns without touching the store. -/
def collectInstagramReviews (connected : Bool) (decode : String → Option String)
    (postsOf : Product → List InstaPost) (products : List Product) (st : CollectorState) :
    CollectorState × Nat :=
  if !connected then (st, 0)
  else
    let activeProducts := products.filter (fun p => p.productSaleStatus == true)
    activeProducts.foldl (collectProductInstagram decode postsOf) (st, 0)

/-! ## KeywordAnalyzer / SentimentScorer (`fedex.js`)

`calculateSentiment` reads only the `sentiment` category of the
aggregation produced by `aggregateKeywords`, and the per-category
aggregation of `extractKeywords`/`aggregateKeywords` treats every
category independently (identical logic per category).  The embedding
therefore instantiates that per-category logic at the `sentiment`
category, whose keyword table is reproduced below in full.
Dictionary weights (JavaScript float literals) are modelled as exact
rationals. -/

/-- A review's analyzable text (`review.title || ''`, `review.description || ''`). -/
structure ReviewText where
  title : String
  description : String
  deriving Repr

/-- One entry of the `sentiment` category of `KEYWORD_DICTIONARY`:
weight, polarity tag and optional canonical English form. -/
structure KwInfo where
  weight : ℚ
  sentiment : String
  en : Option String := none
  deriving Repr

set_option maxHeartbeats 2000000 in
/-- The `sentiment` category of `KEYWORD_DICTIONARY` (all 75 entries, in
source order). -/
def sentimentKeywordTable : List (String × KwInfo) :=
 [("좋아요", { weight := 1, sentiment := "positive", en := some "love it" }),
  ("최고", { weight := 1, sentiment := "positive", en := some "best" }),
  ("강추", { weight := 1, sentiment := "positive", en := some "highly recommend" }),
  ("추천", { weight := 0.8, sentiment := "positive", en := some "recommend" }),
  ("만족", { weight := 1, sentiment := "positive", en := some "satisfied" }),
  ("대박", { weight := 1, sentiment := "positive", en := some "amazing" }),
  ("짱", { weight := 1, sentiment := "positive", en := some "awesome" }),
  ("인생템", { weight := 1, sentiment := "positive", en := some "holy grail" }),
  ("재구매", { weight := 1, sentiment := "positive", en := some "repurchase" }),
  ("갓성비", { weight := 1.2, sentiment := "positive", en := some "best value" }),
  ("가성비", { weight := 1.1, sentiment := "positive", en := some "good value" }),
  ("듀프", { weight := 1.1, sentiment := "positive", en := some "dupe" }),
  ("바이럴", { weight := 1.1, sentiment := "positive", en := some "viral" }),
  ("핫템", { weight := 1.1, sentiment := "positive", en := some "trending" }),
  ("amazing", { weight := 1, sentiment := "positive", en := none }),
  ("love", { weight := 1, sentiment := "positive", en := none }),
  ("best", { weight := 1, sentiment := "positive", en := none }),
  ("recommend", { weight := 0.8, sentiment := "positive", en := none }),
  ("great", { weight := 0.8, sentiment := "positive", en := none }),
  ("holy grail", { weight := 1.2, sentiment := "positive", en := none }),
  ("hg", { weight := 1.2, sentiment := "positive", en := none }),
  ("dupe", { weight := 1.2, sentiment := "positive", en := none }),
  ("worth the hype", { weight := 1.2, sentiment := "positive", en := none }),
  ("game-changer", { weight := 1.2, sentiment := "positive", en := none }),
  ("game changer", { weight := 1.2, sentiment := "positive", en := none }),
  ("must-have", { weight := 1.1, sentiment := "positive", en := none }),
  ("must have", { weight := 1.1, sentiment := "positive", en := none }),
  ("staple", { weight := 1.0, sentiment := "positive", en := none }),
  ("cult favorite", { weight := 1.2, sentiment := "positive", en := none }),
  ("cult-favorite", { weight := 1.2, sentiment := "positive", en := none }),
  ("viral", { weight := 1.1, sentiment := "positive", en := none }),
  ("trending", { weight := 1.0, sentiment := "positive", en := none }),
  ("hype", { weight := 1.0, sentiment := "positive", en := none }),
  ("hyped", { weight := 1.0, sentiment := "positive", en := none }),
  ("obsessed", { weight := 1.1, sentiment := "positive", en := none }),
  ("in love", { weight := 1.0, sentiment := "positive", en := none }),
  ("favorite", { weight := 1.0, sentiment := "positive", en := none }),
  ("fave", { weight := 1.0, sentiment := "positive", en := none }),
  ("repurchase", { weight := 1.1, sentiment := "positive", en := none }),
  ("will repurchase", { weight := 1.2, sentiment := "positive", en := none }),
  ("worth it", { weight := 1.1, sentiment := "positive", en := none }),
  ("game over", { weight := 1.1, sentiment := "positive", en := none }),
  ("chef kiss", { weight := 1.0, sentiment := "positive", en := none }),
  ("no skip", { weight := 1.0, sentiment := "positive", en := none }),
  ("slaps", { weight := 1.0, sentiment := "positive", en := none }),
  ("fire", { weight := 0.9, sentiment := "positive", en := none }),
  ("bomb", { weight := 0.9, sentiment := "positive", en := none }),
  ("slay", { weight := 0.9, sentiment := "positive", en := none }),
  ("grwm", { weight := 1.0, sentiment := "neutral", en := none }),
  ("get ready with me", { weight := 1.0, sentiment := "neutral", en := none }),
  ("ugc", { weight := 1.0, sentiment := "neutral", en := none }),
  ("haul", { weight := 1.0, sentiment := "neutral", en := none }),
  ("unboxing", { weight := 1.0, sentiment := "neutral", en := none }),
  ("first impressions", { weight := 1.0, sentiment := "neutral", en := none }),
  ("empties", { weight := 1.0, sentiment := "neutral", en := none }),
  ("favorites", { weight := 1.0, sentiment := "positive", en := none }),
  ("best of", { weight := 1.0, sentiment := "positive", en := none }),
  ("top picks", { weight := 1.0, sentiment := "positive", en := none }),
  ("honest review", { weight := 1.0, sentiment := "neutral", en := none }),
  ("별로", { weight := 0.8, sentiment := "negative", en := some "not great" }),
  ("실망", { weight := 1, sentiment := "negative", en := some "disappointed" }),
  ("효과없음", { weight := 1, sentiment := "negative", en := some "no effect" }),
  ("disappointed", { weight := 1, sentiment := "negative", en := none }),
  ("not worth", { weight := 1, sentiment := "negative", en := none }),
  ("not worth it", { weight := 1.1, sentiment := "negative", en := none }),
  ("overhyped", { weight := 1.1, sentiment := "negative", en := none }),
  ("overrated", { weight := 1.0, sentiment := "negative", en := none }),
  ("meh", { weight := 0.8, sentiment := "negative", en := none }),
  ("pass", { weight := 0.8, sentiment := "negative", en := none }),
  ("skip", { weight := 0.8, sentiment := "negative", en := none }),
  ("waste", { weight := 1.0, sentiment := "negative", en := none }),
  ("broke me out", { weight := 1.2, sentiment := "negative", en := none }),
  ("breakout", { weight := 1.0, sentiment := "negative", en := none }),
  ("irritation", { weight := 1.0, sentiment := "negative", en := none }),
  ("allergic", { weight := 1.1, sentiment := "negative", en := none })]

/-- Model of `extractKeywords` restricted to the `sentiment` category:
every dictionary keyword that occurs (case-normalized substring match)
in the given text, in dictionary order. -/
def extractSentimentKeywords (text : String) : List (String × KwInfo) :=
  sentimentKeywordTable.filter (fun e => jsIncludes (jsToLower text) (jsToLower e.1))

/-- One aggregated keyword of the `sentiment` category
(`aggregated.sentiment.keywords[key]`). -/
structure AggKw where
  keyword : String
  count : Nat
  totalWeight : ℚ
  sentiment : String
  en : Option String := none
  deriving Repr

/-- Fold step of `aggregateKeywords` for one found keyword: bump the
existing entry keyed by the lower-cased keyword, or append a fresh one
(count 1, the keyword's weight). -/
def aggStep (agg : List (String × AggKw)) (found : String × KwInfo) : List (String × AggKw) :=
  let key := jsToLower found.1
  if agg.any (fun e => e.1 == key) then
    agg.map (fun e =>
      if e.1 == key then
        (e.1, { e.2 with count := e.2.count + 1, totalWeight := e.2.totalWeight + found.2.weight })
      else e)
  else
    agg ++ [(key, { keyword := found.1, count := 1, totalWeight := found.2.weight,
                    sentiment := found.2.sentiment, en := found.2.en })]

/-- Model of `aggregateKeywords` at the `sentiment` category: aggregate
the matched keywords of every review's combined title+description.
Returns the `Object.values` view (insertion order). -/
def aggregateSentimentKeywords (reviews : List ReviewText) : List AggKw :=
  (reviews.foldl
    (fun agg r => (extractSentimentKeywords (r.title ++ " " ++ r.description)).foldl aggStep agg)
    []).map (fun e => e.2)

/-- The accumulation loop of `calculateSentiment`:
`(positiveScore, negativeScore, totalCount)`, where each keyword
contributes `count * totalWeight` to the score of its polarity. -/
def sentimentTotals (kws : List AggKw) : ℚ × ℚ × Nat :=
  kws.foldl
    (fun acc kw =>
      (if kw.sentiment == "positive" then acc.1 + kw.count * kw.totalWeight else acc.1,
       if kw.sentiment == "negative" then acc.2.1 + kw.count * kw.totalWeight else acc.2.1,
       acc.2.2 + kw.count))
    (0, 0, 0)

/-- The raw (unrounded) positive ratio of `calculateSentiment`:
`positiveScore / (positiveScore + negativeScore) * 100`, defaulting to
50 when there is no signal. -/
def rawPositiveRatio (kws : List AggKw) : ℚ :=
  let t := sentimentTotals kws
  if t.1 + t.2.1 > 0 then t.1 / (t.1 + t.2.1) * 100 else 50

/-- Result record of `calculateSentiment`. -/
structure SentimentScore where
  positiveRatio : ℤ
  negativeRatio : ℤ
  positiveCount : ℤ
  negativeCount : ℤ
  totalMentions : Nat
  deriving Repr, DecidableEq

/-- Model of `calculateSentiment` (with `Math.round` as half-up rounding
`round : ℚ → ℤ`).  Note that `negativeRatio` rounds the complement of
the *raw* ratio, not the complement of the rounded `positiveRatio`. -/
def calculateSentiment (kws : List AggKw) : SentimentScore :=
  let t := sentimentTotals kws
  let positiveRatio := rawPositiveRatio kws
  { positiveRatio := round positiveRatio
    negativeRatio := round (100 - positiveRatio)
    positiveCount := round t.1
    negativeCount := round t.2.1
    totalMentions := t.2.2 }

/-! ## Dynamic keyword miner (`fedex.js`, `extractDynamicKeywords`) -/

/-- The `STOP_WORDS` set (all entries, in source order; the JavaScript
`Set` collapses the few repeated entries, which does not change
membership). -/
def STOP_WORDS : List String :=
 [
  "the", "a", "an", "is", "are", "was", "were", "be",
  "been", "being", "have", "has", "had", "do", "does", "did",
  "will", "would", "could", "should", "may", "might", "must", "shall",
  "can", "need", "dare", "ought", "used", "to", "of", "in",
  "for", "on", "with", "at", "by", "from", "as", "into",
  "about", "like", "through", "after", "over", "between", "out", "against",
  "and", "but", "or", "nor", "so", "yet", "both", "either",
  "neither", "not", "only", "own", "same", "than", "too", "very",
  "just", "also", "this", "that", "these", "those", "it", "its",
  "my", "your", "his", "her", "i", "you", "he", "she",
  "we", "they", "me", "him", "us", "them", "what", "which",
  "who", "whom", "whose", "where", "when", "why", "how", "all",
  "each", "every", "any", "some", "no", "none", "more", "most",
  "other", "up", "down", "here", "there", "now", "then", "if",
  "because", "while", "video", "videos", "subscribe", "channel", "watch", "review",
  "reviews", "tutorial", "routine", "routines", "using", "trying", "tried", "try",
  "test", "testing", "tested", "get", "got", "getting", "use", "used",
  "make", "made", "making", "see", "look", "looking", "looks", "new",
  "one", "first", "day", "days", "time", "way", "back", "really",
  "actually", "literally", "honestly", "think", "know", "want", "need", "going",
  "come", "coming", "take", "taking", "put", "give", "work", "works",
  "link", "below", "check", "comment", "comments", "share", "follow", "like",
  "likes", "이", "그", "저", "것", "수", "등", "및",
  "더", "또", "안", "좀", "잘", "못", "너무", "많이",
  "정말", "진짜", "완전", "되게", "엄청", "https", "http", "www",
  "com", "org", "net", "youtube", "youtu", "bit", "linktr", "instagram",
  "tiktok", "facebook", "twitter", "products", "product", "skin", "face", "here",
  "best", "good", "bad", "right", "wrong", "full", "free", "shop",
  "buy", "sale", "off", "code", "affiliate", "sponsored", "gifted", "discount",
  "coupon"]

/-- The `BEAUTY_BOOST_WORDS` set (all entries, in source order). -/
def BEAUTY_BOOST_WORDS : List String :=
 [
  "pdrn", "phyto-pdrn", "exosomes", "exosome", "polynucleotides", "polynucleotide", "nmn",
  "nhn", "ectoin", "bakuchiol", "egf", "fgf", "postbiotics", "postbiotic",
  "probiotics", "prebiotics", "glutathione", "ghk-cu", "copper", "tranexamic", "azelaic",
  "pha", "lha", "resveratrol", "astaxanthin", "fullerene", "salmon", "collagen",
  "peptide", "niacinamide", "retinol", "hyaluronic", "vitamin", "ceramide", "cica",
  "centella", "snail", "propolis", "aha", "bha", "adenosine", "bifida",
  "galactomyces", "saccharomyces", "ferment", "fermented", "mugwort", "artemisia", "madecassoside",
  "allantoin", "panthenol", "arbutin", "kojic", "licorice", "glucan", "slow-aging",
  "skinimalism", "glass", "glassy", "cloud", "barrier", "microbiome", "skin-cycling",
  "slugging", "skip-care", "clean", "waterless", "dewy", "plump", "plumping",
  "bouncy", "translucent", "poreless", "luminous", "radiant", "radiance", "glow",
  "glowy", "regenerating", "rejuvenating", "revitalizing", "second-skin", "blurring", "blur",
  "soft-focus", "lip-oil", "hybrid", "cushion", "tinted", "skin-tint", "bb",
  "cc", "matte", "satin", "velvet", "glossy", "sheer", "buildable",
  "coverage", "transfer-proof", "long-wear", "waterproof", "smudge-proof", "mask-proof", "holy-grail",
  "hg", "dupe", "viral", "hype", "hyped", "trending", "game-changer",
  "must-have", "staple", "cult-favorite", "obsessed", "favorite", "fave", "repurchase",
  "worth", "slaps", "slay", "grwm", "ugc", "haul", "unboxing",
  "empties", "serum", "cream", "gel", "lotion", "essence", "toner",
  "ampoule", "mask", "moisturizer", "cleanser", "sunscreen", "spf", "oil",
  "balm", "hydrating", "brightening", "moisturizing", "soothing", "firming", "anti-aging",
  "acne", "pore", "pores", "wrinkle", "lifting", "exfoliating", "nourishing",
  "lightweight", "smooth", "absorbs", "sticky", "refreshing", "silky", "medicube",
  "anua", "cosrx", "beauty", "korean", "kbeauty", "skincare", "innisfree",
  "laneige", "sulwhasoo", "amorepacific", "missha", "etude", "klairs", "isntree",
  "goodal", "round-lab", "torriden", "skin1004"]

/-- Character class `[a-z]` of the token regular expression. -/
def isLatinLower (c : Char) : Bool :=
  'a' ≤ c && c ≤ 'z'

/-- Character class `[가-힣]` (Korean syllables) of the token regular
expression. -/
def isHangulChar (c : Char) : Bool :=
  '가' ≤ c && c ≤ '힣'

/-- Fuel-indexed scanner behind `tokenizeWords` (structural recursion;
exact once `fuel ≥ l.length`). -/
def tokenizeAux : Nat → List Char → List (List Char)
  | 0, _ => []
  | _ + 1, [] => []
  | fuel + 1, c :: rest =>
    if isLatinLower c then
      (if (rest.takeWhile isLatinLower).length + 1 ≥ 3 then [c :: rest.takeWhile isLatinLower] else [])
        ++ tokenizeAux fuel (rest.drop (rest.takeWhile isLatinLower).length)
    else if isHangulChar c then
      (if (rest.takeWhile isHangulChar).length + 1 ≥ 2 then [c :: rest.takeWhile isHangulChar] else [])
        ++ tokenizeAux fuel (rest.drop (rest.takeWhile isHangulChar).length)
    else tokenizeAux fuel rest

/-- All matches of the global regular expression `/[a-z]{3,}|[가-힣]{2,}/g`
on the (already lower-cased) text: maximal runs of Latin letters of
length ≥ 3 and maximal runs of Korean syllables of length ≥ 2, in
left-to-right order.  (A maximal run shorter than the branch's minimum
cannot match at any of its positions, so skipping it whole agrees with
the regex engine's one-position advance.) -/
def tokenizeWords (l : List Char) : List (List Char) :=
  tokenizeAux l.length l

/-- One entry of the `wordFrequency` accumulator. -/
structure FreqEntry where
  word : String
  count : Nat
  boost : Nat
  deriving Repr, DecidableEq

/-- Fold step of the word-frequency loop: drop stop words and tokens
shorter than 3 characters, then bump or create the word's entry (boost
2 for domain-vocabulary words, otherwise 1, fixed at creation). -/
def dynStep (freq : List FreqEntry) (word : String) : List FreqEntry :=
  if STOP_WORDS.contains word then freq
  else if word.length < 3 then freq
  else if freq.any (fun e => e.word == word) then
    freq.map (fun e => if e.word == word then { e with count := e.count + 1 } else e)
  else
    freq ++ [{ word := word, count := 1,
               boost := if BEAUTY_BOOST_WORDS.contains word then 2 else 1 }]

/-- Output entry of `extractDynamicKeywords`. -/
structure DynKeyword where
  keyword : String
  count : Nat
  score : Nat
  isBoosted : Bool
  deriving Repr, DecidableEq

/-- Stable descending insertion by `score` (model of the stable
JavaScript `sort((a, b) => b.score - a.score)`): an element is placed
after every already-placed element of greater or equal score. -/
def insertByScoreDesc (x : DynKeyword) : List DynKeyword → List DynKeyword
  | [] => [x]
  | y :: ys => if y.score ≥ x.score then y :: insertByScoreDesc x ys else x :: y :: ys

/-- Stable sort by descending score. -/
def sortByScoreDesc (l : List DynKeyword) : List DynKeyword :=
  l.foldl (fun acc x => insertByScoreDesc x acc) []

/-- Model of `extractDynamicKeywords`: tokenize every review's combined
lower-cased title+description, accumulate frequencies with boosts, keep
words mentioned at least twice, sort by boosted score (descending,
stable) and take the top 30. -/
def extractDynamicKeywords (reviews : List ReviewText) : List DynKeyword :=
  let wordFrequency := reviews.foldl
    (fun freq r =>
      ((tokenizeWords (jsToLower (r.title ++ " " ++ r.description)).data).map
        (fun w => (⟨w⟩ : String))).foldl dynStep freq)
    []
  (sortByScoreDesc
    ((wordFrequency.map (fun e =>
      { keyword := e.word, count := e.count, score := e.count * e.boost,
        isBoosted := e.boost > 1 })).filter (fun k => k.count ≥ 2))).take 30

/-! ## ResolutionChain / FeedbackLearner (Claude AI review summarizer)

The AI collaborator (`anthropicClient.messages.create` plus JSON
parsing) is external; a call outcome is passed in as
`Option ClaudeResult`, where `none` stands for any failure (network,
auth, malformed response JSON) — all of which raise before the function
mutates any state — and `some` for a successfully parsed response.
`Date.now()` is passed in as `now` (milliseconds).  Wall-clock ISO
strings (`analyzedAt`, `overriddenAt`, `lastAnalyzedAt`) and the
fire-and-forget `saveCallback` are not modelled. -/

/-- A stored sentiment ratio pair. -/
structure Sentiment where
  positiveRatio : ℤ
  negativeRatio : ℤ
  deriving Repr, DecidableEq

/-- An operator override record.  The store that creates these lives
outside the collection/summarizer sources; the field shape follows the
spec's data model (operator-fixed summary/hashtags/sentiment, optional
`direction`). -/
structure Override where
  productCode : String
  summary : String
  hashtags : List String
  sentiment : Sentiment
  direction : Option String := none
  updatedAt : String := ""
  deriving Repr, DecidableEq

/-- A stored `productInsights` record.  `summaryEn` models `summary.en`
(`none` when the summary is absent); `lastAnalyzedAt` (wall-clock) is
omitted. -/
structure ProductInsight where
  productCode : String
  insights : String
  summaryEn : Option String
  hashtags : List String
  sentiment : Sentiment
  reviewIds : List Nat
  version : Nat
  deriving Repr, DecidableEq

/-- An operator feedback record (`aiFeedbackHistory` entry). -/
structure FeedbackRecord where
  productCode : String
  originalSummary : String
  correctedSummary : String
  createdAt : String
  deriving Repr, DecidableEq

/-- A successfully parsed Claude response (the JSON object the prompt
demands). -/
structure ClaudeResult where
  summary : String
  hashtags : List String
  sentiment : Sentiment
  updatedInsights : Option String := none
  deriving Repr, DecidableEq

/-- An `analysisCache` entry: the parsed response, the fingerprint of
the analyzed review-id set, and the write time in milliseconds. -/
structure CacheEntry where
  summary : ClaudeResult
  analyzedReviewIds : String
  timestamp : Nat
  deriving Repr, DecidableEq

/-- An approved review as consumed by the resolution chain.  Only the id
is used by the chain's own logic (the content fields only feed the
external AI prompt). -/
structure ApprovedReview where
  id : Nat
  deriving Repr, DecidableEq

/-- The summarizer's shared mutable state: the injected stores, the
in-process analysis cache, and the availability of the AI provider
(`isClaudeAvailable()`). -/
structure SummarizerState where
  snsReviewOverrides : List Override
  productInsights : List ProductInsight
  aiFeedbackHistory : List FeedbackRecord
  analysisCache : List (String × CacheEntry)
  claudeAvailable : Bool
  deriving Repr, DecidableEq

/-- The cache TTL: 30 minutes in milliseconds. -/
def CACHE_TTL : Nat := 30 * 60 * 1000

/-- Model of `Array.prototype.join(sep)`. -/
def joinWith (sep : String) : List String → String
  | [] => ""
  | [s] => s
  | s :: rest => s ++ sep ++ joinWith sep rest

/-- Insertion step of `sortJs` (place after all smaller-or-equal
entries). -/
def insertSortedStr (x : String) : List String → List String
  | [] => [x]
  | y :: ys => if y ≤ x then y :: insertSortedStr x ys else x :: y :: ys

/-- Model of JavaScript `Array.prototype.sort()` on strings:
lexicographic by code unit, which coincides with Lean's `String` order
on the ASCII decimal strings produced by `toString`. -/
def sortJs (l : List String) : List String :=
  l.foldl (fun acc x => insertSortedStr x acc) []

/-- The cache fingerprint `ids.sort().join(',')` of a review-id set. -/
def reviewIdsFingerprint (ids : List Nat) : String :=
  joinWith "," (sortJs (ids.map toString))

/-- Model of `getCachedAnalysis`: returns the cached parsed response if
the entry exists, has not outlived the TTL and matches the fingerprint
of the current review ids; expired entries are deleted (second
component is the updated cache). -/
def getCachedAnalysis (now : Nat) (cache : List (String × CacheEntry)) (productCode : String)
    (currentReviewIds : List Nat) : Option ClaudeResult × List (String × CacheEntry) :=
  match cache.find? (fun e => e.1 == productCode) with
  | none => (none, cache)
  | some e =>
    if now - e.2.timestamp > CACHE_TTL then
      (none, cache.filter (fun x => !(x.1 == productCode)))
    else if e.2.analyzedReviewIds ≠ reviewIdsFingerprint currentReviewIds then (none, cache)
    else (some e.2.summary, cache)

/-- Model of `Map.prototype.set`: replace the entry in place or append. -/
def cacheSet (cache : List (String × CacheEntry)) (k : String) (v : CacheEntry) :
    List (String × CacheEntry) :=
  if cache.any (fun e => e.1 == k) then
    cache.map (fun e => if e.1 == k then (k, v) else e)
  else cache ++ [(k, v)]

/-- Replace the first insight with the given product code (model of
`productInsightsRef[existingIdx] = insightData`). -/
def replaceFirstInsight (code : String) (new : ProductInsight) :
    List ProductInsight → List ProductInsight
  | [] => []
  | i :: rest =>
    if i.productCode == code then new :: rest else i :: replaceFirstInsight code new rest

/-- Model of `h.replace(/^#/, '')`. -/
def stripLeadingHash (h : String) : String :=
  match h.data with
  | '#' :: t => ⟨t⟩
  | _ => h

/-- The payload shape returned by `getSummary` (wall-clock fields
omitted). -/
structure SummaryPayload where
  summary : String
  hashtags : List String
  sentiment : Sentiment
  reviewCount : Nat
  aiProvider : String
  deriving Repr, DecidableEq

/-- The `productInsights` update block of `analyzeWithClaude`
(`if (result.updatedInsights && productInsightsRef) ...`): when the
response carries a nonempty `updatedInsights`, replace (bumping the
version) or append the product's insight record. -/
def applyInsightsUpdate (result : ClaudeResult) (st : SummarizerState)
    (reviews : List ApprovedReview) (productCode : String) : SummarizerState :=
  match result.updatedInsights with
  | some insightsText =>
    if insightsText ≠ "" then
      let insightData : ProductInsight :=
        { productCode := productCode
          insights := insightsText
          summaryEn := some result.summary
          hashtags := result.hashtags
          sentiment := result.sentiment
          reviewIds := reviews.map (fun (r : ApprovedReview) => r.id)
          version :=
            match st.productInsights.find?
                (fun (i : ProductInsight) => i.productCode == productCode) with
            | some old => old.version + 1
            | none => 1 }
      { st with productInsights :=
          if st.productInsights.any (fun i => i.productCode == productCode) then
            replaceFirstInsight productCode insightData st.productInsights
          else st.productInsights ++ [insightData] }
    else st
  | none => st

/-- Model of `analyzeWithClaude`: on a successfully parsed response,
update `productInsights` (bumping the version) when the response
carries a nonempty `updatedInsights`, write the cache entry, and return
the normalized payload (provider tag `"claude"`).  `none` models the
raised error of any failed call, which leaves all state untouched. -/
def analyzeWithClaude (response : Option ClaudeResult) (now : Nat) (st : SummarizerState)
    (reviews : List ApprovedReview) (productCode : String) :
    Option (SummaryPayload × SummarizerState) :=
  match response with
  | none => none
  | some result =>
    let st1 := applyInsightsUpdate result st reviews productCode
    let entry : CacheEntry :=
      { summary := result
        analyzedReviewIds := reviewIdsFingerprint (reviews.map (fun r => r.id))
        timestamp := now }
    some
      ({ summary := result.summary
         hashtags := result.hashtags.map stripLeadingHash
         sentiment := result.sentiment
         reviewCount := reviews.length
         aiProvider := "claude" },
       { st1 with analysisCache := cacheSet st1.analysisCache productCode entry })

/-- A hashtag object produced by the keyword fallback
(`extractAllHashtags` output shape). -/
structure KwTag where
  tag : String
  displayTag : String
  deriving Repr, DecidableEq

/-- The shape returned by the injected keyword fallback
(`generateReviewSummary`): a `{ko, en}` summary, hashtag objects, a
sentiment pair and the review count. -/
structure KeywordFallbackResult where
  summaryKo : String
  summaryEn : String
  hashtags : List KwTag
  sentiment : Sentiment
  reviewCount : Nat
  deriving Repr, DecidableEq

/-- The defined empty payload of resolution step 5 (no reviews, no
insight): empty summary and hashtags, 0/0 sentiment, provider `"none"`. -/
def emptySummaryPayload : SummaryPayload :=
  { summary := ""
    hashtags := []
    sentiment := { positiveRatio := 0, negativeRatio := 0 }
    reviewCount := 0
    aiProvider := "none" }

/-- Resolution steps 4–5: the keyword fallback over a nonempty approved
set (with the `{ko,en}`/tag-object normalization of the source), else
the empty payload. -/
def keywordTail (st : SummarizerState) (approvedReviews : List ApprovedReview)
    (keywordFallback : Option (List ApprovedReview → KeywordFallbackResult)) (aiCalls : Nat) :
    SummaryPayload × SummarizerState × Nat :=
  match keywordFallback with
  | some fallback =>
    if approvedReviews.length > 0 then
      let kwResult := fallback approvedReviews
      let normalizedSummary :=
        if kwResult.summaryEn ≠ "" then kwResult.summaryEn
        else if kwResult.summaryKo ≠ "" then kwResult.summaryKo
        else ""
      let normalizedHashtags :=
        ((kwResult.hashtags.map (fun h => if h.displayTag ≠ "" then h.displayTag else h.tag)).filter
          (fun s => s ≠ ""))
      ({ summary := normalizedSummary
         hashtags := normalizedHashtags
         sentiment := kwResult.sentiment
         reviewCount := kwResult.reviewCount
         aiProvider := "keyword" }, st, aiCalls)
    else (emptySummaryPayload, st, aiCalls)
  | none => (emptySummaryPayload, st, aiCalls)

/-- Resolution steps 3–5: the last stored insight (provider tag
`"insights-cached"`), else the keyword fallback, else empty. -/
def resolutionTail (st : SummarizerState) (productCode : String)
    (approvedReviews : List ApprovedReview)
    (keywordFallback : Option (List ApprovedReview → KeywordFallbackResult)) (aiCalls : Nat) :
    SummaryPayload × SummarizerState × Nat :=
  match st.productInsights.find? (fun i => i.productCode == productCode) with
  | some insight =>
    match insight.summaryEn with
    | some summaryText =>
      ({ summary := summaryText
         hashtags := insight.hashtags
         sentiment := insight.sentiment
         reviewCount := approvedReviews.length
         aiProvider := "insights-cached" }, st, aiCalls)
    | none => keywordTail st approvedReviews keywordFallback aiCalls
  | none => keywordTail st approvedReviews keywordFallback aiCalls

/-- Model of `getSummary`: the override → Claude (cache first) →
stored-insight → keyword → empty resolution chain.  Returns the
payload, the next state, and the number of AI invocations performed
(0 or 1). -/
def getSummary (response : Option ClaudeResult) (now : Nat) (st : SummarizerState)
    (productCode : String) (approvedReviews : List ApprovedReview)
    (keywordFallback : Option (List ApprovedReview → KeywordFallbackResult)) :
    SummaryPayload × SummarizerState × Nat :=
  match st.snsReviewOverrides.find? (fun o => o.productCode == productCode) with
  | some override =>
    ({ summary := override.summary
       hashtags := override.hashtags
       sentiment := override.sentiment
       reviewCount := approvedReviews.length
       aiProvider := "override" }, st, 0)
  | none =>
    if st.claudeAvailable && approvedReviews.length > 0 then
      let cacheResult :=
        getCachedAnalysis now st.analysisCache productCode (approvedReviews.map (fun r => r.id))
      let st1 := { st with analysisCache := cacheResult.2 }
      match cacheResult.1 with
      | some cached =>
        ({ summary := cached.summary
           hashtags := cached.hashtags
           sentiment := cached.sentiment
           reviewCount := approvedReviews.length
           aiProvider := "claude-cached" }, st1, 0)
      | none =>
        match analyzeWithClaude response now st1 approvedReviews productCode with
        | some r => (r.1, r.2, 1)
        | none => resolutionTail st1 productCode approvedReviews keywordFallback 1
    else resolutionTail st productCode approvedReviews keywordFallback 0

/-- Remove the first feedback record with the given product code (model
of `indexOf`/`splice` on the reference found at `productFeedbacks[0]`). -/
def removeFirstFeedback (code : String) : List FeedbackRecord → List FeedbackRecord
  | [] => []
  | r :: rs => if r.productCode == code then rs else r :: removeFirstFeedback code rs

/-- Model of `recordFeedback`: append the record, then, if the product
now has more than 10 records, evict its oldest one.  `createdAt` is the
wall-clock ISO string the source stores. -/
def recordFeedback (hist : List FeedbackRecord)
    (productCode originalSummary correctedSummary createdAt : String) : List FeedbackRecord :=
  let hist1 := hist ++
    [{ productCode := productCode, originalSummary := originalSummary,
       correctedSummary := correctedSummary, createdAt := createdAt }]
  if (hist1.filter (fun f => f.productCode == productCode)).length > 10 then
    removeFirstFeedback productCode hist1
  else hist1

/-- The number of stored feedback records of one product. -/
def feedbackCountFor (code : String) (hist : List FeedbackRecord) : Nat :=
  (hist.filter (fun f => f.productCode == code)).length

/-! ## Supporting lemmas -/

theorem jsRoundPct_le_100 (m t : Nat) (hm : m ≤ t) (ht : 0 < t) : jsRoundPct m t ≤ 100 := by
  unfold jsRoundPct
  have h2 : 0 < 2 * t := by omega
  have hlt : (200 * m + t) / (2 * t) < 101 := by
    rw [Nat.div_lt_iff_lt_mul h2]
    omega
  omega

/-! ## Claim C7: every scoring policy stays within [0, 100] -/

/-- C7.  For every candidate and product, both scoring policies produce a
`matchScore` within [0, 100]: the YouTube hashtag-overlap policy (rounded
overlap percentage, or the fixed 80 on a verbatim product-name match)
and the Instagram weighted-sum policy `calculateMatchScore`. -/
theorem c7_matchScore_within_bounds :
    (∀ (hashtags : List String) (searchText productNameLower : String) (score : Nat),
        youtubeMatchResult hashtags searchText productNameLower = some score →
        0 ≤ score ∧ score ≤ 100) ∧
    (∀ (post : InstaPost) (product : Product) (hashtags : List String),
        0 ≤ calculateMatchScore post product hashtags ∧
        calculateMatchScore post product hashtags ≤ 100) := by
  constructor
  · intro hashtags searchText productNameLower score h
    refine ⟨Nat.zero_le _, ?_⟩
    simp only [youtubeMatchResult] at h
    by_cases h0 : hashtags.length > 0
    · simp only [if_pos h0] at h
      by_cases hm : 0 < (hashtags.filter (fun tag => jsIncludes searchText (jsToLower tag))).length
      · rw [if_pos hm] at h
        cases h
        exact jsRoundPct_le_100 _ _ (List.length_filter_le _ _) h0
      · rw [if_neg hm] at h
        by_cases hn : jsIncludes searchText productNameLower = true
        · rw [if_pos hn] at h
          cases h
          omega
        · rw [if_neg hn] at h
          cases h
    · simp only [if_neg h0, List.length_nil, Nat.lt_irrefl, if_false] at h
      by_cases hn : jsIncludes searchText productNameLower = true
      · rw [if_pos hn] at h
        cases h
        omega
      · rw [if_neg hn] at h
        cases h
  · intro post product hashtags
    refine ⟨Nat.zero_le _, ?_⟩
    simp only [calculateMatchScore]
    have hmin : min ((hashtags.filter (fun tag =>
        jsIncludes (jsToLower post.caption) ("#" ++ jsToLower tag) ||
          jsIncludes (jsToLower post.caption) (jsToLower tag))).length * 20) 60 ≤ 60 :=
      Nat.min_le_right _ _
    split <;> split <;> omega

/-- Witness for C7: a concrete product-name match scores 80, within the
bounds. -/
theorem c7_matchScore_within_bounds_witness :
    youtubeMatchResult [] "best cica cream review" "cica" = some 80 ∧ 0 ≤ 80 ∧ 80 ≤ 100 :=
  ⟨by decide,
   c7_matchScore_within_bounds.1 [] "best cica cream review" "cica" 80 (by decide)⟩

/-! ## Claim C1: an override wins verbatim -/

/-- C1.  Whenever an override record exists for the product, `getSummary`
returns the override's summary, hashtags and sentiment verbatim with
provider tag `"override"`, for every AI availability, cache state,
approved-review list and fallback. -/
theorem c1_override_returned_verbatim (response : Option ClaudeResult) (now : Nat)
    (st : SummarizerState) (productCode : String) (approvedReviews : List ApprovedReview)
    (keywordFallback : Option (List ApprovedReview → KeywordFallbackResult)) (o : Override)
    (hov : st.snsReviewOverrides.find? (fun o => o.productCode == productCode) = some o) :
    (getSummary response now st productCode approvedReviews keywordFallback).1 =
      { summary := o.summary, hashtags := o.hashtags, sentiment := o.sentiment,
        reviewCount := approvedReviews.length, aiProvider := "override" } := by
  simp only [getSummary, hov]

/-- Witness for C1 at a concrete override and otherwise empty state. -/
theorem c1_override_returned_verbatim_witness :
    ([({ productCode := "P1", summary := "Operator text", hashtags := ["glow"],
         sentiment := { positiveRatio := 90, negativeRatio := 10 } } : Override)].find?
        (fun o => o.productCode == "P1") = some
          { productCode := "P1", summary := "Operator text", hashtags := ["glow"],
            sentiment := { positiveRatio := 90, negativeRatio := 10 } }) ∧
    (getSummary none 0
        { snsReviewOverrides :=
            [{ productCode := "P1", summary := "Operator text", hashtags := ["glow"],
               sentiment := { positiveRatio := 90, negativeRatio := 10 } }],
          productInsights := [], aiFeedbackHistory := [], analysisCache := [],
          claudeAvailable := true } "P1" [] none).1 =
      { summary := "Operator text", hashtags := ["glow"],
        sentiment := { positiveRatio := 90, negativeRatio := 10 },
        reviewCount := 0, aiProvider := "override" } :=
  ⟨by decide,
   c1_override_returned_verbatim none 0
     { snsReviewOverrides :=
         [{ productCode := "P1", summary := "Operator text", hashtags := ["glow"],
            sentiment := { positiveRatio := 90, negativeRatio := 10 } }],
       productInsights := [], aiFeedbackHistory := [], analysisCache := [],
       claudeAvailable := true } "P1" [] none
     { productCode := "P1", summary := "Operator text", hashtags := ["glow"],
       sentiment := { positiveRatio := 90, negativeRatio := 10 } } (by decide)⟩

/-! ## Claim C5: the no-data payload -/

/-- Counterexample to C5 as stated: with no override, no insight, no
reviews and no AI, `getSummary` returns sentiment 0/0 — not the claimed
50/50. -/
theorem c5_counterexample_zero_sentiment :
    (getSummary none 0
        { snsReviewOverrides := [], productInsights := [], aiFeedbackHistory := [],
          analysisCache := [], claudeAvailable := false } "P1" [] none).1.sentiment =
      { positiveRatio := 0, negativeRatio := 0 } ∧
    ({ positiveRatio := 0, negativeRatio := 0 } : Sentiment) ≠
      { positiveRatio := 50, negativeRatio := 50 } := by
  constructor <;> decide

/-- C5 (amended).  With no override, no stored insight and no approved
reviews, `getSummary` returns the defined empty payload — empty summary
and hashtags, provider `"none"` and 0/0 (not 50/50) sentiment — rather
than an error, regardless of AI availability, cache state and fallback. -/
theorem c5_empty_payload (response : Option ClaudeResult) (now : Nat) (st : SummarizerState)
    (productCode : String) (keywordFallback : Option (List ApprovedReview → KeywordFallbackResult))
    (hov : st.snsReviewOverrides.find? (fun o => o.productCode == productCode) = none)
    (hins : st.productInsights.find? (fun i => i.productCode == productCode) = none) :
    (getSummary response now st productCode [] keywordFallback).1 = emptySummaryPayload := by
  cases keywordFallback <;>
    simp [getSummary, hov, resolutionTail, hins, keywordTail]

/-- Witness for C5 at a concrete empty state. -/
theorem c5_empty_payload_witness :
    (([] : List Override).find? (fun o => o.productCode == "P1") = none) ∧
    (([] : List ProductInsight).find? (fun i => i.productCode == "P1") = none) ∧
    (getSummary none 0
        { snsReviewOverrides := [], productInsights := [], aiFeedbackHistory := [],
          analysisCache := [], claudeAvailable := true } "P1" [] none).1 = emptySummaryPayload :=
  ⟨by decide, by decide,
   c5_empty_payload none 0
     { snsReviewOverrides := [], productInsights := [], aiFeedbackHistory := [],
       analysisCache := [], claudeAvailable := true } "P1" none (by decide) (by decide)⟩

/-! ## Claim C10: feedback history is bounded to the 10 most recent -/

/-- The record `recordFeedback` builds from one call's arguments
(product code and an `(original, corrected, createdAt)` triple). -/
def mkFeedback (code : String) (c : String × String × String) : FeedbackRecord :=
  { productCode := code, originalSummary := c.1, correctedSummary := c.2.1, createdAt := c.2.2 }

theorem feedbackCountFor_append_single (c : String) (hist : List FeedbackRecord)
    (r : FeedbackRecord) :
    feedbackCountFor c (hist ++ [r]) =
      feedbackCountFor c hist + if r.productCode == c then 1 else 0 := by
  simp only [feedbackCountFor, List.filter_append, List.length_append]
  by_cases h : r.productCode == c
  · simp [List.filter, h]
  · simp [List.filter, h]

theorem feedbackCountFor_removeFirst_le (c pc : String) (hist : List FeedbackRecord) :
    feedbackCountFor c (removeFirstFeedback pc hist) ≤ feedbackCountFor c hist := by
  induction hist with
  | nil => simp [removeFirstFeedback]
  | cons r rs ih =>
    simp only [removeFirstFeedback]
    by_cases h : r.productCode == pc
    · rw [if_pos h]
      simp only [feedbackCountFor, List.filter]
      by_cases hc : r.productCode == c <;> simp [hc, feedbackCountFor] at ih ⊢
    · rw [if_neg h]
      simp only [feedbackCountFor, List.filter] at ih ⊢
      by_cases hc : r.productCode == c
      · simp only [hc]
        simpa using ih
      · simp only [Bool.not_eq_true] at hc
        simp only [hc]
        exact ih

theorem feedbackCountFor_removeFirst_self (pc : String) (hist : List FeedbackRecord) :
    feedbackCountFor pc (removeFirstFeedback pc hist) = feedbackCountFor pc hist - 1 := by
  induction hist with
  | nil => simp [removeFirstFeedback, feedbackCountFor]
  | cons r rs ih =>
    simp only [removeFirstFeedback]
    by_cases h : r.productCode == pc
    · rw [if_pos h]
      simp [feedbackCountFor, List.filter, h]
    · rw [if_neg h]
      simp only [feedbackCountFor, List.filter, h] at ih ⊢
      simpa [h] using ih

theorem recordFeedback_count_le (hist : List FeedbackRecord) (pc a b t : String)
    (hb : ∀ c, feedbackCountFor c hist ≤ 10) (c : String) :
    feedbackCountFor c (recordFeedback hist pc a b t) ≤ 10 := by
  simp only [recordFeedback]
  set r : FeedbackRecord :=
    { productCode := pc, originalSummary := a, correctedSummary := b, createdAt := t } with hr
  have hcount : feedbackCountFor c (hist ++ [r]) =
      feedbackCountFor c hist + if r.productCode == c then 1 else 0 :=
    feedbackCountFor_append_single c hist r
  by_cases htrig : ((hist ++ [r]).filter (fun f => f.productCode == pc)).length > 10
  · rw [if_pos htrig]
    by_cases hc : c = pc
    · subst hc
      rw [feedbackCountFor_removeFirst_self]
      have hself : feedbackCountFor c (hist ++ [r]) ≤ feedbackCountFor c hist + 1 := by
        rw [hcount]; split <;> omega
      have := hb c
      omega
    · calc feedbackCountFor c (removeFirstFeedback pc (hist ++ [r]))
          ≤ feedbackCountFor c (hist ++ [r]) := feedbackCountFor_removeFirst_le c pc _
        _ ≤ 10 := by
            rw [hcount, hr]
            simp only []
            have : (pc == c) = false := by
              simp [beq_eq_false_iff_ne]
              exact fun h => hc h.symm
            rw [this]
            simpa using hb c
  · rw [if_neg htrig]
    have hpc : feedbackCountFor pc (hist ++ [r]) ≤ 10 := by
      simpa [feedbackCountFor] using htrig
    by_cases hc : c = pc
    · subst hc; exact hpc
    · rw [hcount, hr]
      simp only []
      have : (pc == c) = false := by
        simp [beq_eq_false_iff_ne]
        exact fun h => hc h.symm
      rw [this]
      simpa using hb c

theorem feedbackCountFor_map_mk (code : String) (l : List (String × String × String)) :
    feedbackCountFor code (l.map (mkFeedback code)) = l.length := by
  induction l with
  | nil => simp [feedbackCountFor]
  | cons x xs ih =>
    simp only [List.map_cons, feedbackCountFor, List.filter, mkFeedback, beq_self_eq_true,
      List.length_cons] at ih ⊢
    omega

theorem recordFeedback_small (hist : List FeedbackRecord) (pc a b t : String)
    (hcount : feedbackCountFor pc hist ≤ 9) :
    recordFeedback hist pc a b t = hist ++
      [{ productCode := pc, originalSummary := a, correctedSummary := b, createdAt := t }] := by
  simp only [recordFeedback]
  rw [if_neg]
  have h := feedbackCountFor_append_single pc hist
    { productCode := pc, originalSummary := a, correctedSummary := b, createdAt := t }
  simp only [beq_self_eq_true, if_pos] at h
  simp only [feedbackCountFor] at h hcount
  omega

theorem recordFeedback_full (hd : FeedbackRecord) (tl : List FeedbackRecord) (pc a b t : String)
    (hall : ∀ r ∈ hd :: tl, r.productCode = pc)
    (hlen : (hd :: tl).length = 10) :
    recordFeedback (hd :: tl) pc a b t = tl ++
      [{ productCode := pc, originalSummary := a, correctedSummary := b, createdAt := t }] := by
  simp only [recordFeedback]
  set r : FeedbackRecord :=
    { productCode := pc, originalSummary := a, correctedSummary := b, createdAt := t } with hr
  have hhd : (hd.productCode == pc) = true := by
    rw [beq_iff_eq]
    exact hall hd (List.mem_cons_self _ _)
  have hfilter : ((hd :: tl) ++ [r]).filter (fun f => f.productCode == pc) = (hd :: tl) ++ [r] := by
    apply List.filter_eq_self.2
    intro x hx
    rw [beq_iff_eq]
    rcases List.mem_append.1 hx with hx2 | hx2
    · exact hall _ hx2
    · have hxr : x = r := by simpa using hx2
      rw [hxr, hr]
  have hcond : (((hd :: tl) ++ [r]).filter (fun f => f.productCode == pc)).length > 10 := by
    rw [hfilter]
    simp only [List.length_append, List.length_cons, List.length_singleton]
    simp only [List.length_cons] at hlen
    omega
  rw [if_pos hcond]
  simp [removeFirstFeedback, hhd]

theorem foldl_recordFeedback_below (code : String) (xs : List (String × String × String)) :
    ∀ (pre : List (String × String × String)), pre.length + xs.length ≤ 10 →
    xs.foldl (fun h c => recordFeedback h code c.1 c.2.1 c.2.2) (pre.map (mkFeedback code)) =
      (pre ++ xs).map (mkFeedback code) := by
  induction xs with
  | nil => intro pre _; simp
  | cons x xs ih =>
    intro pre hlen
    simp only [List.foldl_cons]
    rw [recordFeedback_small _ _ _ _ _ (by
      rw [feedbackCountFor_map_mk]
      simp only [List.length_cons] at hlen
      omega)]
    have hmap : (pre.map (mkFeedback code)) ++
        [{ productCode := code, originalSummary := x.1,
           correctedSummary := x.2.1, createdAt := x.2.2 }] =
        (pre ++ [x]).map (mkFeedback code) := by
      simp [mkFeedback]
    rw [hmap, ih (pre ++ [x]) (by
      simp only [List.length_append, List.length_cons, List.length_singleton,
        List.length_nil] at hlen ⊢
      omega)]
    simp

/-- C10.  Starting from an empty store, any sequence of `recordFeedback`
calls leaves at most 10 records per product; and 11 consecutive calls
for one product leave exactly the 10 most recent records, in order (the
oldest is evicted by the 11th insert). -/
theorem c10_feedback_history_bounded :
    (∀ (calls : List (String × String × String × String)) (code : String),
        feedbackCountFor code
          (calls.foldl (fun h c => recordFeedback h c.1 c.2.1 c.2.2.1 c.2.2.2) []) ≤ 10) ∧
    (∀ (code : String) (x1 x2 x3 x4 x5 x6 x7 x8 x9 x10 x11 : String × String × String),
        ([x1, x2, x3, x4, x5, x6, x7, x8, x9, x10, x11].foldl
            (fun h c => recordFeedback h code c.1 c.2.1 c.2.2) []) =
          [x2, x3, x4, x5, x6, x7, x8, x9, x10, x11].map (mkFeedback code)) := by
  constructor
  · intro calls code
    have h := foldl_preserves (fun h => ∀ c, feedbackCountFor c h ≤ 10)
      (fun h c => recordFeedback h c.1 c.2.1 c.2.2.1 c.2.2.2)
      (fun s a hs => recordFeedback_count_le s a.1 a.2.1 a.2.2.1 a.2.2.2 hs)
      calls [] (by intro c; simp [feedbackCountFor])
    exact h code
  · intro code x1 x2 x3 x4 x5 x6 x7 x8 x9 x10 x11
    have hsplit : [x1, x2, x3, x4, x5, x6, x7, x8, x9, x10, x11] =
        [x1, x2, x3, x4, x5, x6, x7, x8, x9, x10] ++ [x11] := rfl
    rw [hsplit, List.foldl_append]
    have h10 := foldl_recordFeedback_below code
      [x1, x2, x3, x4, x5, x6, x7, x8, x9, x10] [] (by simp)
    simp only [List.map_nil, List.nil_append] at h10
    rw [h10]
    have hall : ∀ r ∈ (mkFeedback code x1) ::
        ([x2, x3, x4, x5, x6, x7, x8, x9, x10].map (mkFeedback code)), r.productCode = code := by
      intro r hr
      rcases List.mem_cons.1 hr with rfl | hr2
      · rfl
      · rcases List.mem_map.1 hr2 with ⟨y, _, rfl⟩
        rfl
    have hlen : ((mkFeedback code x1) ::
        ([x2, x3, x4, x5, x6, x7, x8, x9, x10].map (mkFeedback code))).length = 10 := by
      simp
    simp only [List.foldl_cons, List.foldl_nil]
    rw [show List.map (mkFeedback code) [x1, x2, x3, x4, x5, x6, x7, x8, x9, x10] =
      mkFeedback code x1 :: List.map (mkFeedback code) [x2, x3, x4, x5, x6, x7, x8, x9, x10]
      from rfl]
    rw [recordFeedback_full _ _ _ _ _ _ hall hlen]
    simp [mkFeedback]

/-! ## Claim C8: the dynamic keyword miner versus 2-character Korean tokens -/

/-- C8 (divergence witness).  The tokenizer does extract the
2-character Korean token `수분` twice — exactly as the regular
expression's `[가-힣]{2,}` branch and the adjacent source comment
promise — yet `extractDynamicKeywords` returns no keyword for it at
all, because the subsequent `word.length < 3` guard discards every
2-character token.  Under the documented tokenization a twice-occurring
token is eligible for the output. -/
theorem c8_two_char_korean_token_dropped :
    ((tokenizeWords (jsToLower ("수분 수분" ++ " " ++ "")).data).map
        (fun w => (⟨w⟩ : String))) = ["수분", "수분"] ∧
    extractDynamicKeywords [{ title := "수분 수분", description := "" }] = [] := by
  constructor <;> decide

/-! ## Claim C9: the hashtag extractor's de-duplication -/

/-- Counterexample to C9 as stated: a blob containing `#Cica` and later
`#cica` yields two hashtags, not one — the `Set` de-duplication is
exact-string (case-sensitive), not case-insensitive — although the two
tags agree modulo case. -/
theorem c9_counterexample_case_sensitive :
    extractHashtagsFromProduct (fun _ => some "<p>#Cica glow serum #cica</p>")
        { productCode := "P1", productName := "n", productSaleStatus := true,
          detailInfo := some "blob" } = ["Cica", "cica"] ∧
    jsToLower "Cica" = jsToLower "cica" ∧
    (["Cica", "cica"] : List String).length ≠ 1 := by
  refine ⟨by decide, by decide, by decide⟩

/-- C9 (amended).  The hashtag extractor strips the leading `#` of each
matched token and de-duplicates exactly (case-sensitively), keeping
first occurrences in order: the result is a duplicate-free sublist of
the stripped matched-token list containing exactly the tokens that
occur; a missing `detailInfo` or a decode failure yields `[]`. -/
theorem c9_extractor_dedup_exact (decode : String → Option String) (p : Product) :
    (p.detailInfo = none → extractHashtagsFromProduct decode p = []) ∧
    (∀ blob, p.detailInfo = some blob → decode blob = none →
      extractHashtagsFromProduct decode p = []) ∧
    (extractHashtagsFromProduct decode p).Nodup ∧
    (∀ blob html, p.detailInfo = some blob → decode blob = some html →
      (extractHashtagsFromProduct decode p).Sublist (extractedHashtagTokens html) ∧
      ∀ tok, tok ∈ extractHashtagsFromProduct decode p ↔ tok ∈ extractedHashtagTokens html) := by
  refine ⟨?_, ?_, ?_, ?_⟩
  · intro h
    simp [extractHashtagsFromProduct, h]
  · intro blob hblob hdec
    simp [extractHashtagsFromProduct, hblob, hdec]
  · rcases hdet : p.detailInfo with _ | blob
    · simp [extractHashtagsFromProduct, hdet]
    · rcases hdec : decode blob with _ | html
      · simp [extractHashtagsFromProduct, hdet, hdec]
      · simp only [extractHashtagsFromProduct, hdet, hdec]
        exact dedupFirst_nodup _
  · intro blob html hblob hdec
    simp only [extractHashtagsFromProduct, hblob, hdec]
    exact ⟨dedupFirst_sublist _, fun tok => mem_dedupFirst _ tok⟩

/-- Witness for C9 at concrete inputs: a decode failure yields `[]`, and
a successful decode with a repeated tag yields the deduplicated,
order-preserving token list. -/
theorem c9_extractor_dedup_exact_witness :
    (extractHashtagsFromProduct (fun _ => none)
        { productCode := "P2", productName := "n", productSaleStatus := true,
          detailInfo := some "???" } = []) ∧
    (extractHashtagsFromProduct (fun _ => some "#dew #cica #dew")
        { productCode := "P3", productName := "n", productSaleStatus := true,
          detailInfo := some "blob" }).Nodup ∧
    (extractHashtagsFromProduct (fun _ => some "#dew #cica #dew")
        { productCode := "P3", productName := "n", productSaleStatus := true,
          detailInfo := some "blob" }).Sublist
      (extractedHashtagTokens "#dew #cica #dew") :=
  ⟨(c9_extractor_dedup_exact (fun _ => none)
      { productCode := "P2", productName := "n", productSaleStatus := true,
        detailInfo := some "???" }).2.1 "???" rfl rfl,
   (c9_extractor_dedup_exact (fun _ => some "#dew #cica #dew")
      { productCode := "P3", productName := "n", productSaleStatus := true,
        detailInfo := some "blob" }).2.2.1,
   ((c9_extractor_dedup_exact (fun _ => some "#dew #cica #dew")
      { productCode := "P3", productName := "n", productSaleStatus := true,
        detailInfo := some "blob" }).2.2.2 "blob" "#dew #cica #dew" rfl rfl).1⟩

/-! ## Claim C6: cache reuse within the TTL -/

theorem find?_append_none {α : Type} (p : α → Bool) (l1 l2 : List α) (h : l1.find? p = none) :
    (l1 ++ l2).find? p = l2.find? p := by
  induction l1 with
  | nil => simp
  | cons x xs ih =>
    by_cases hp : p x = true
    · rw [List.find?_cons_of_pos _ hp] at h
      cases h
    · rw [List.find?_cons_of_neg _ hp] at h
      rw [List.cons_append, List.find?_cons_of_neg _ hp]
      exact ih h

theorem find?_cacheSet_self (cache : List (String × CacheEntry)) (k : String) (v : CacheEntry) :
    (cacheSet cache k v).find? (fun e => e.1 == k) = some (k, v) := by
  unfold cacheSet
  by_cases h : cache.any (fun e => e.1 == k)
  · rw [if_pos h]
    induction cache with
    | nil => simp at h
    | cons e es ih =>
      by_cases he : (e.1 == k) = true
      · simp only [List.map_cons, if_pos he]
        exact List.find?_cons_of_pos _ (by simp)
      · simp only [List.map_cons, if_neg he]
        have he3 : (e.1 == k) = false := by simpa using he
        simp only [List.find?, he3]
        apply ih
        simpa [List.any_cons, he] using h
  · rw [if_neg h]
    rw [find?_append_none _ _ _ ?_]
    · exact List.find?_cons_of_pos _ (by simp)
    · rw [List.find?_eq_none]
      intro x hx hpx
      exact h (List.any_eq_true.2 ⟨x, hx, hpx⟩)

theorem applyInsightsUpdate_overrides (result : ClaudeResult) (st : SummarizerState)
    (reviews : List ApprovedReview) (productCode : String) :
    (applyInsightsUpdate result st reviews productCode).snsReviewOverrides =
        st.snsReviewOverrides ∧
      (applyInsightsUpdate result st reviews productCode).claudeAvailable =
        st.claudeAvailable ∧
      (applyInsightsUpdate result st reviews productCode).analysisCache = st.analysisCache := by
  unfold applyInsightsUpdate
  cases result.updatedInsights with
  | none => exact ⟨rfl, rfl, rfl⟩
  | some s =>
    by_cases hs : s ≠ ""
    · simp [if_pos hs]
    · simp [if_neg hs]

theorem analyzeWithClaude_state (r : ClaudeResult) (now : Nat) (st : SummarizerState)
    (reviews : List ApprovedReview) (productCode : String) :
    ∃ st2, analyzeWithClaude (some r) now st reviews productCode =
        some ({ summary := r.summary, hashtags := r.hashtags.map stripLeadingHash,
                sentiment := r.sentiment, reviewCount := reviews.length,
                aiProvider := "claude" }, st2) ∧
      st2.snsReviewOverrides = st.snsReviewOverrides ∧
      st2.claudeAvailable = st.claudeAvailable ∧
      st2.analysisCache = cacheSet st.analysisCache productCode
        { summary := r,
          analyzedReviewIds := reviewIdsFingerprint (reviews.map (fun x => x.id)),
          timestamp := now } := by
  obtain ⟨h1, h2, h3⟩ := applyInsightsUpdate_overrides r st reviews productCode
  refine ⟨_, rfl, h1, h2, ?_⟩
  simp only []
  rw [h3]

/-- C6.  With no override, an available AI provider, a nonempty
unchanged approved-review list and an initially empty cache slot, two
`getSummary` calls whose second happens within the 30-minute TTL of the
first successful analysis invoke the AI exactly once in total, and the
second call's provider tag is `"claude-cached"` (whatever AI outcome
`response2` would have had). -/
theorem c6_second_call_hits_cache (r : ClaudeResult) (response2 : Option ClaudeResult)
    (now1 now2 : Nat) (st : SummarizerState) (productCode : String)
    (approvedReviews : List ApprovedReview)
    (kf1 kf2 : Option (List ApprovedReview → KeywordFallbackResult))
    (hov : st.snsReviewOverrides.find? (fun o => o.productCode == productCode) = none)
    (hav : st.claudeAvailable = true)
    (hrev : approvedReviews ≠ [])
    (hcache : st.analysisCache.find? (fun e => e.1 == productCode) = none)
    (httl : now2 - now1 ≤ CACHE_TTL) :
    (getSummary (some r) now1 st productCode approvedReviews kf1).2.2 +
      (getSummary response2 now2 (getSummary (some r) now1 st productCode approvedReviews kf1).2.1
        productCode approvedReviews kf2).2.2 = 1 ∧
    (getSummary response2 now2 (getSummary (some r) now1 st productCode approvedReviews kf1).2.1
        productCode approvedReviews kf2).1.aiProvider = "claude-cached" := by
  have hlen : 0 < approvedReviews.length := List.length_pos.2 hrev
  have hdec : decide (approvedReviews.length > 0) = true := decide_eq_true hlen
  have hgca1 : getCachedAnalysis now1 st.analysisCache productCode
      (approvedReviews.map (fun x => x.id)) = (none, st.analysisCache) := by
    unfold getCachedAnalysis
    rw [hcache]
  obtain ⟨st2, hana, hov2, hav2, hcache2⟩ :=
    analyzeWithClaude_state r now1 { st with claudeAvailable := true }
      approvedReviews productCode
  simp only [] at hov2 hav2 hcache2
  have hov3 : st2.snsReviewOverrides.find? (fun o => o.productCode == productCode) = none := by
    rw [hov2]
    exact hov
  have hav3 : st2.claudeAvailable = true := by rw [hav2]
  have hgca2 : getCachedAnalysis now2 st2.analysisCache productCode
      (approvedReviews.map (fun x => x.id)) = (some r, st2.analysisCache) := by
    unfold getCachedAnalysis
    rw [hcache2, find?_cacheSet_self]
    simp only []
    rw [if_neg (by omega), if_neg (by simp)]
  simp only [getSummary, hov, hav, hdec, Bool.true_and, if_true, hgca1, hana, hov3, hav3, hgca2]
  refine ⟨?_, ?_⟩ <;> trivial

/-- Concrete parsed response used by the C6 witness. -/
def c6Response : ClaudeResult :=
  { summary := "Nice", hashtags := ["#glow"],
    sentiment := { positiveRatio := 80, negativeRatio := 20 },
    updatedInsights := some "insight text" }

/-- Concrete initial state used by the C6 witness. -/
def c6State : SummarizerState :=
  { snsReviewOverrides := [], productInsights := [], aiFeedbackHistory := [],
    analysisCache := [], claudeAvailable := true }

/-- Witness for C6 at a concrete state, response and pair of call
times 0 ms and 1000 ms (within the 30-minute TTL). -/
theorem c6_second_call_hits_cache_witness :
    (getSummary (some c6Response) 0 c6State "P1" [{ id := 1 }, { id := 2 }] none).2.2 +
      (getSummary none 1000
        (getSummary (some c6Response) 0 c6State "P1" [{ id := 1 }, { id := 2 }] none).2.1
        "P1" [{ id := 1 }, { id := 2 }] none).2.2 = 1 ∧
    (getSummary none 1000
        (getSummary (some c6Response) 0 c6State "P1" [{ id := 1 }, { id := 2 }] none).2.1
        "P1" [{ id := 1 }, { id := 2 }] none).1.aiProvider = "claude-cached" :=
  c6_second_call_hits_cache c6Response none 0 1000 c6State "P1" [{ id := 1 }, { id := 2 }]
    none none rfl rfl (by decide) rfl (by decide)

/-! ## Claim C4: the sentiment scorer's arithmetic -/

theorem round_neg_eq_of_fract_ne_half (q : ℚ) (h : Int.fract q ≠ 1 / 2) :
    round (-q) = -round q := by
  have hfr : (⌊q⌋ : ℚ) + Int.fract q = q := Int.floor_add_fract q
  have hf0 : 0 ≤ Int.fract q := Int.fract_nonneg q
  have hf1 : Int.fract q < 1 := Int.fract_lt_one q
  by_cases hlt : Int.fract q < 1 / 2
  · have h1 : ⌊q + 1 / 2⌋ = ⌊q⌋ := by
      rw [show q + 1 / 2 = ((⌊q⌋ : ℤ) : ℚ) + (Int.fract q + 1 / 2) by linarith]
      rw [Int.floor_int_add]
      have h2 : ⌊(Int.fract q + 1 / 2 : ℚ)⌋ = 0 :=
        Int.floor_eq_zero_iff.2 (by rw [Set.mem_Ico]; constructor <;> linarith)
      omega
    have h3 : ⌊-q + 1 / 2⌋ = -⌊q⌋ := by
      rw [show -q + 1 / 2 = ((-⌊q⌋ : ℤ) : ℚ) + (1 / 2 - Int.fract q) by push_cast; linarith]
      rw [Int.floor_int_add]
      have h4 : ⌊(1 / 2 - Int.fract q : ℚ)⌋ = 0 :=
        Int.floor_eq_zero_iff.2 (by rw [Set.mem_Ico]; constructor <;> linarith)
      omega
    rw [round_eq, round_eq, h1, h3]
  · have hgt : 1 / 2 < Int.fract q := lt_of_le_of_ne (not_lt.1 hlt) (fun he => h he.symm)
    have h1 : ⌊q + 1 / 2⌋ = ⌊q⌋ + 1 := by
      rw [show q + 1 / 2 = ((⌊q⌋ : ℤ) : ℚ) + (Int.fract q + 1 / 2) by linarith]
      rw [Int.floor_int_add]
      have h2 : ⌊(Int.fract q + 1 / 2 : ℚ)⌋ = 1 :=
        Int.floor_eq_iff.2 ⟨by push_cast; linarith, by push_cast; linarith⟩
      omega
    have h3 : ⌊-q + 1 / 2⌋ = -⌊q⌋ - 1 := by
      rw [show -q + 1 / 2 = ((-⌊q⌋ - 1 : ℤ) : ℚ) + (3 / 2 - Int.fract q) by push_cast; linarith]
      rw [Int.floor_int_add]
      have h4 : ⌊(3 / 2 - Int.fract q : ℚ)⌋ = 0 :=
        Int.floor_eq_zero_iff.2 (by rw [Set.mem_Ico]; constructor <;> linarith)
      omega
    rw [round_eq, round_eq, h1, h3]
    omega

theorem round_hundred_sub (q : ℚ) (h : Int.fract q ≠ 1 / 2) :
    round (100 - q) = 100 - round q := by
  rw [show (100 - q : ℚ) = -q + ((100 : ℤ) : ℚ) by push_cast; ring]
  rw [round_add_int, round_neg_eq_of_fract_ne_half q h]
  omega

/-- Review batch whose sentiment ratio has an exact-half fractional part
(1 positive point against 7 negative points: 12.5 %). -/
def c4HalfReviews : List ReviewText :=
  [{ title := "love", description := "" },
   { title := "disappointed waste", description := "" },
   { title := "disappointed breakout irritation", description := "" }]

/-- Counterexample to C4 as stated: on a batch scoring 1 positive
against 7 negative points the scorer returns 13/88 — the two ratios sum
to 101, so `negativeRatio ≠ 100 − positiveRatio`: the source rounds
`100 − rawRatio` rather than complementing the rounded value. -/
theorem c4_counterexample_half_rounding :
    (calculateSentiment (aggregateSentimentKeywords c4HalfReviews)).positiveRatio = 13 ∧
    (calculateSentiment (aggregateSentimentKeywords c4HalfReviews)).negativeRatio = 88 ∧
    (88 : ℤ) ≠ 100 - 13 := by
  have hagg : aggregateSentimentKeywords c4HalfReviews =
      [{ keyword := "love", count := 1, totalWeight := 1, sentiment := "positive", en := none },
       { keyword := "disappointed", count := 2, totalWeight := 1 + 1, sentiment := "negative",
         en := none },
       { keyword := "waste", count := 1, totalWeight := 1.0, sentiment := "negative",
         en := none },
       { keyword := "breakout", count := 1, totalWeight := 1.0, sentiment := "negative",
         en := none },
       { keyword := "irritation", count := 1, totalWeight := 1.0, sentiment := "negative",
         en := none }] := rfl
  have hne : ¬("negative" = "positive") := by decide
  have hne2 : ¬("positive" = "negative") := by decide
  refine ⟨?_, ?_, by decide⟩ <;>
  · rw [hagg]
    simp only [calculateSentiment, sentimentTotals, rawPositiveRatio, List.foldl]
    norm_num [round_eq, hne, hne2]

/-- Review batch with 3 equally-weighted positive mentions and 1
equally-weighted negative mention. -/
def c4BalancedReviews : List ReviewText :=
  [{ title := "amazing", description := "" },
   { title := "love", description := "" },
   { title := "best", description := "" },
   { title := "disappointed", description := "" }]

/-- C4 (amended).  The sentiment scorer returns
`positiveRatio = round(positive/(positive+negative) × 100)` and
`negativeRatio = round(100 − positive/(positive+negative) × 100)` — the
complement of the *raw* ratio, which equals `100 − positiveRatio`
whenever the raw ratio's fractional part is not exactly 1/2; with no
positive or negative signal both default to 50; and the 3-vs-1
equally-weighted batch yields 75/25. -/
theorem c4_sentiment_scorer_formulas :
    (∀ kws : List AggKw,
        (calculateSentiment kws).positiveRatio = round (rawPositiveRatio kws) ∧
        (calculateSentiment kws).negativeRatio = round (100 - rawPositiveRatio kws)) ∧
    (∀ kws : List AggKw, ¬((sentimentTotals kws).1 + (sentimentTotals kws).2.1 > 0) →
        (calculateSentiment kws).positiveRatio = 50 ∧
        (calculateSentiment kws).negativeRatio = 50) ∧
    (∀ kws : List AggKw, Int.fract (rawPositiveRatio kws) ≠ 1 / 2 →
        (calculateSentiment kws).negativeRatio = 100 - (calculateSentiment kws).positiveRatio) ∧
    ((calculateSentiment (aggregateSentimentKeywords c4BalancedReviews)).positiveRatio = 75 ∧
     (calculateSentiment (aggregateSentimentKeywords c4BalancedReviews)).negativeRatio = 25) := by
  refine ⟨fun kws => ⟨rfl, rfl⟩, ?_, ?_, ?_⟩
  · intro kws h
    have hraw : rawPositiveRatio kws = 50 := by
      simp only [rawPositiveRatio, if_neg h]
    constructor
    · show round (rawPositiveRatio kws) = 50
      rw [hraw]
      norm_num [round_eq]
    · show round (100 - rawPositiveRatio kws) = 50
      rw [hraw]
      norm_num [round_eq]
  · intro kws h
    show round (100 - rawPositiveRatio kws) = 100 - round (rawPositiveRatio kws)
    exact round_hundred_sub _ h
  · have hagg : aggregateSentimentKeywords c4BalancedReviews =
        [{ keyword := "amazing", count := 1, totalWeight := 1, sentiment := "positive",
           en := none },
         { keyword := "love", count := 1, totalWeight := 1, sentiment := "positive", en := none },
         { keyword := "best", count := 1, totalWeight := 1, sentiment := "positive", en := none },
         { keyword := "disappointed", count := 1, totalWeight := 1, sentiment := "negative",
           en := none }] := rfl
    have hne : ¬("negative" = "positive") := by decide
    have hne2 : ¬("positive" = "negative") := by decide
    constructor <;>
    · rw [hagg]
      simp only [calculateSentiment, sentimentTotals, rawPositiveRatio, List.foldl]
      norm_num [round_eq, hne, hne2]

/-- Witness for C4's conditional parts at concrete inputs: the empty
aggregation has no signal and yields 50/50, and its raw ratio (50) has
fractional part 0 ≠ 1/2, so the ratios are complementary there. -/
theorem c4_sentiment_scorer_formulas_witness :
    (¬((sentimentTotals []).1 + (sentimentTotals []).2.1 > 0) ∧
      (calculateSentiment []).positiveRatio = 50 ∧
      (calculateSentiment []).negativeRatio = 50) ∧
    (Int.fract (rawPositiveRatio []) ≠ 1 / 2 ∧
      (calculateSentiment []).negativeRatio = 100 - (calculateSentiment []).positiveRatio) := by
  have h0 : ¬((sentimentTotals ([] : List AggKw)).1 + (sentimentTotals []).2.1 > 0) := by
    norm_num [sentimentTotals]
  have h1 : Int.fract (rawPositiveRatio ([] : List AggKw)) ≠ 1 / 2 := by
    norm_num [rawPositiveRatio, sentimentTotals, Int.fract]
  exact ⟨⟨h0, c4_sentiment_scorer_formulas.2.1 [] h0⟩,
         ⟨h1, c4_sentiment_scorer_formulas.2.2.1 [] h1⟩⟩

/-! ## Claim C3: the query planner's combination queries -/

/-- Character-list form of a space-join (`joinSpace` on `.data`). -/
def spaceJoinData : List (List Char) → List Char
  | [] => []
  | [l] => l
  | l :: rest => l ++ ' ' :: spaceJoinData rest

theorem splitAtSpace (x : List Char) : ∀ (z y w : List Char), ' ' ∉ x → ' ' ∉ z →
    x ++ ' ' :: y = z ++ ' ' :: w → x = z ∧ y = w := by
  induction x with
  | nil =>
    intro z y w _ hz heq
    cases z with
    | nil => simpa using heq
    | cons c zs =>
      simp only [List.nil_append, List.cons_append, List.cons.injEq] at heq
      exfalso
      apply hz
      rw [heq.1]
      exact List.mem_cons_self c zs
  | cons a as ih =>
    intro z y w hx hz heq
    cases z with
    | nil =>
      simp only [List.cons_append, List.nil_append, List.cons.injEq] at heq
      exfalso
      apply hx
      rw [← heq.1]
      exact List.mem_cons_self a as
    | cons c zs =>
      simp only [List.cons_append, List.cons.injEq] at heq
      obtain ⟨hac, heq2⟩ := heq
      have hx2 : ' ' ∉ as := fun hm => hx (List.mem_cons_of_mem _ hm)
      have hz2 : ' ' ∉ zs := fun hm => hz (List.mem_cons_of_mem _ hm)
      obtain ⟨h1, h2⟩ := ih zs y w hx2 hz2 heq2
      exact ⟨by rw [hac, h1], h2⟩

theorem spaceJoinData_inj : ∀ (as bs : List (List Char)), as ≠ [] → bs ≠ [] →
    (∀ l ∈ as, ' ' ∉ l) → (∀ l ∈ bs, ' ' ∉ l) →
    spaceJoinData as = spaceJoinData bs → as = bs := by
  intro as
  induction as with
  | nil => intro bs h; exact absurd rfl h
  | cons x xs ih =>
    intro bs _ hbs hsp1 hsp2 heq
    cases bs with
    | nil => exact absurd rfl hbs
    | cons y ys =>
      cases xs with
      | nil =>
        cases ys with
        | nil =>
          simp only [spaceJoinData] at heq
          rw [heq]
        | cons y2 ys2 =>
          simp only [spaceJoinData] at heq
          exfalso
          apply hsp1 x (List.mem_cons_self _ _)
          rw [heq]
          exact List.mem_append_right _ (List.mem_cons_self _ _)
      | cons x2 xs2 =>
        cases ys with
        | nil =>
          simp only [spaceJoinData] at heq
          exfalso
          apply hsp2 y (List.mem_cons_self _ _)
          rw [← heq]
          exact List.mem_append_right _ (List.mem_cons_self _ _)
        | cons y2 ys2 =>
          simp only [spaceJoinData] at heq
          obtain ⟨hxy, hjoin⟩ := splitAtSpace x y _ _
            (hsp1 x (List.mem_cons_self _ _)) (hsp2 y (List.mem_cons_self _ _)) heq
          have hrest := ih (y2 :: ys2) (by simp) (by simp)
            (fun l hl => hsp1 l (List.mem_cons_of_mem _ hl))
            (fun l hl => hsp2 l (List.mem_cons_of_mem _ hl)) hjoin
          rw [hxy, hrest]

theorem query_data (combo : List String) (h : combo ≠ []) :
    (joinSpace combo ++ " review").data =
      spaceJoinData ((combo ++ ["review"]).map String.data) := by
  induction combo with
  | nil => exact absurd rfl h
  | cons s rest ih =>
    cases rest with
    | nil =>
      show (joinSpace [s] ++ " review").data = _
      rw [show joinSpace [s] = s from rfl, String.data_append]
      rfl
    | cons t r =>
      have ih2 := ih (by simp)
      show ((s ++ " " ++ joinSpace (t :: r)) ++ " review").data = _
      rw [String.data_append, String.data_append, String.data_append]
      rw [show (" " : String).data = [' '] from rfl]
      rw [List.append_assoc, List.append_assoc, List.singleton_append]
      rw [show ((joinSpace (t :: r)).data ++ (" review").data) =
        (joinSpace (t :: r) ++ " review").data from (String.data_append _ _).symm]
      rw [ih2]
      rfl

theorem string_data_injective : Function.Injective String.data :=
  fun _ _ h => String.ext h

theorem query_ne (c1 c2 : List String) (h1 : c1 ≠ []) (h2 : c2 ≠ [])
    (hsp1 : ∀ l ∈ c1, ' ' ∉ l.data) (hsp2 : ∀ l ∈ c2, ' ' ∉ l.data) (hne : c1 ≠ c2) :
    ¬(joinSpace c1 ++ " review" = joinSpace c2 ++ " review") := by
  intro heq
  apply hne
  have hd := congrArg String.data heq
  rw [query_data c1 h1, query_data c2 h2] at hd
  have hlists := spaceJoinData_inj ((c1 ++ ["review"]).map String.data)
    ((c2 ++ ["review"]).map String.data) (by simp) (by simp)
    (by
      intro l hl
      rcases List.mem_map.1 hl with ⟨s, hs, rfl⟩
      rcases List.mem_append.1 hs with hsm | hsm
      · exact hsp1 s hsm
      · rw [List.mem_singleton.1 hsm]
        decide)
    (by
      intro l hl
      rcases List.mem_map.1 hl with ⟨s, hs, rfl⟩
      rcases List.mem_append.1 hs with hsm | hsm
      · exact hsp2 s hsm
      · rw [List.mem_singleton.1 hsm]
        decide)
    hd
  have happ := List.map_injective_iff.2 string_data_injective hlists
  exact List.append_cancel_right happ

/-- C3.  For three pairwise-distinct space-free hashtags `[a, b, c]`,
`generateHashtagSearchQueries` returns exactly the 7 combination
queries, largest combination first, each joined with spaces and
suffixed with the `" review"` qualifier, in the source's order. -/
theorem c3_query_planner_seven_queries (a b c productName : String)
    (hab : a ≠ b) (hac : a ≠ c) (hbc : b ≠ c)
    (hsa : ' ' ∉ a.data) (hsb : ' ' ∉ b.data) (hsc : ' ' ∉ c.data) :
    generateHashtagSearchQueries [a, b, c] productName =
      [joinSpace [a, b, c] ++ " review",
       joinSpace [a, b] ++ " review",
       joinSpace [a, c] ++ " review",
       joinSpace [b, c] ++ " review",
       a ++ " review", b ++ " review", c ++ " review"] := by
  have hq : generateHashtagSearchQueries [a, b, c] productName =
      dedupFirst
        [joinSpace [a, b, c] ++ " review",
         joinSpace [a, b] ++ " review",
         joinSpace [a, c] ++ " review",
         joinSpace [b, c] ++ " review",
         joinSpace [a] ++ " review", joinSpace [b] ++ " review",
         joinSpace [c] ++ " review"] := rfl
  have Habc : ∀ l ∈ [a, b, c], ' ' ∉ l.data := by
    intro l hl
    simp only [List.mem_cons, List.not_mem_nil, or_false] at hl
    rcases hl with rfl | rfl | rfl <;> assumption
  have Hab : ∀ l ∈ [a, b], ' ' ∉ l.data := by
    intro l hl
    simp only [List.mem_cons, List.not_mem_nil, or_false] at hl
    rcases hl with rfl | rfl <;> assumption
  have Hac : ∀ l ∈ [a, c], ' ' ∉ l.data := by
    intro l hl
    simp only [List.mem_cons, List.not_mem_nil, or_false] at hl
    rcases hl with rfl | rfl <;> assumption
  have Hbc : ∀ l ∈ [b, c], ' ' ∉ l.data := by
    intro l hl
    simp only [List.mem_cons, List.not_mem_nil, or_false] at hl
    rcases hl with rfl | rfl <;> assumption
  have Ha : ∀ l ∈ [a], ' ' ∉ l.data := by
    intro l hl
    rw [List.mem_singleton.1 hl]
    assumption
  have Hb : ∀ l ∈ [b], ' ' ∉ l.data := by
    intro l hl
    rw [List.mem_singleton.1 hl]
    assumption
  have Hc : ∀ l ∈ [c], ' ' ∉ l.data := by
    intro l hl
    rw [List.mem_singleton.1 hl]
    assumption
  rw [hq, dedupFirst_eq_self]
  · rfl
  simp only [List.nodup_cons, List.mem_cons, List.not_mem_nil, or_false, not_or,
    List.nodup_nil, and_true]
  refine ⟨⟨?_, ?_, ?_, ?_, ?_, ?_⟩, ⟨?_, ?_, ?_, ?_, ?_⟩, ⟨?_, ?_, ?_, ?_⟩,
    ⟨?_, ?_, ?_⟩, ⟨?_, ?_⟩, ?_⟩
  · exact query_ne [a, b, c] [a, b] (by simp) (by simp) Habc Hab (by simp)
  · exact query_ne [a, b, c] [a, c] (by simp) (by simp) Habc Hac (by simp)
  · exact query_ne [a, b, c] [b, c] (by simp) (by simp) Habc Hbc (by simp)
  · exact query_ne [a, b, c] [a] (by simp) (by simp) Habc Ha (by simp)
  · exact query_ne [a, b, c] [b] (by simp) (by simp) Habc Hb (by simp)
  · exact query_ne [a, b, c] [c] (by simp) (by simp) Habc Hc (by simp)
  · exact query_ne [a, b] [a, c] (by simp) (by simp) Hab Hac (by simp [hbc])
  · exact query_ne [a, b] [b, c] (by simp) (by simp) Hab Hbc (by simp [hab])
  · exact query_ne [a, b] [a] (by simp) (by simp) Hab Ha (by simp)
  · exact query_ne [a, b] [b] (by simp) (by simp) Hab Hb (by simp)
  · exact query_ne [a, b] [c] (by simp) (by simp) Hab Hc (by simp)
  · exact query_ne [a, c] [b, c] (by simp) (by simp) Hac Hbc (by simp [hab])
  · exact query_ne [a, c] [a] (by simp) (by simp) Hac Ha (by simp)
  · exact query_ne [a, c] [b] (by simp) (by simp) Hac Hb (by simp)
  · exact query_ne [a, c] [c] (by simp) (by simp) Hac Hc (by simp)
  · exact query_ne [b, c] [a] (by simp) (by simp) Hbc Ha (by simp)
  · exact query_ne [b, c] [b] (by simp) (by simp) Hbc Hb (by simp)
  · exact query_ne [b, c] [c] (by simp) (by simp) Hbc Hc (by simp)
  · exact query_ne [a] [b] (by simp) (by simp) Ha Hb (by simp [hab])
  · exact query_ne [a] [c] (by simp) (by simp) Ha Hc (by simp [hac])
  · exact ⟨query_ne [b] [c] (by simp) (by simp) Hb Hc (by simp [hbc]), not_false⟩

/-- Witness for C3 at the source comment's example hashtags. -/
theorem c3_query_planner_seven_queries_witness :
    ("meebak" ≠ "cica" ∧ ' ' ∉ "meebak".data) ∧
    generateHashtagSearchQueries ["meebak", "cica", "cream"] "Meebak Cica Cream" =
      [joinSpace ["meebak", "cica", "cream"] ++ " review",
       joinSpace ["meebak", "cica"] ++ " review",
       joinSpace ["meebak", "cream"] ++ " review",
       joinSpace ["cica", "cream"] ++ " review",
       "meebak" ++ " review", "cica" ++ " review", "cream" ++ " review"] :=
  ⟨⟨by decide, by decide⟩,
   c3_query_planner_seven_queries "meebak" "cica" "cream" "Meebak Cica Cream"
     (by decide) (by decide) (by decide) (by decide) (by decide) (by decide)⟩

/-! ## Claim C2: deduplicated, idempotent collection -/

/-- The store invariant: no two stored reviews share
`(platform, externalId)`. -/
def reviewKeysNodup (st : CollectorState) : Prop :=
  (st.snsReviews.map (fun r => (r.platform, r.externalId))).Nodup

/-- The review store only grows during collection. -/
def storeLe (s1 s2 : CollectorState) : Prop :=
  ∃ tail, s2.snsReviews = s1.snsReviews ++ tail

theorem storeLe_refl (s : CollectorState) : storeLe s s :=
  ⟨[], by simp⟩

theorem storeLe_trans {s1 s2 s3 : CollectorState} (h1 : storeLe s1 s2) (h2 : storeLe s2 s3) :
    storeLe s1 s3 := by
  obtain ⟨t1, ht1⟩ := h1
  obtain ⟨t2, ht2⟩ := h2
  exact ⟨t1 ++ t2, by rw [ht2, ht1, List.append_assoc]⟩

theorem any_mono_storeLe {s1 s2 : CollectorState} (h : storeLe s1 s2) (p : SnsReview → Bool)
    (ha : s1.snsReviews.any p = true) : s2.snsReviews.any p = true := by
  obtain ⟨t, ht⟩ := h
  rw [ht, List.any_append, ha, Bool.true_or]

/-- A YouTube candidate is settled for a product in a given store: it is
either already stored (same platform and external id) or it does not
match the product. -/
def videoSettled (hashtags : List String) (product : Product) (st : CollectorState)
    (v : Video) : Prop :=
  st.snsReviews.any (fun r => r.platform == "YOUTUBE" && r.externalId == v.videoId) = true ∨
  youtubeMatchResult hashtags (jsToLower (v.title ++ " " ++ v.description))
    (jsToLower (jsTrim product.productName)) = none

theorem videoSettled_mono {hashtags : List String} {product : Product}
    {s1 s2 : CollectorState} {v : Video} (hle : storeLe s1 s2)
    (h : videoSettled hashtags product s1 v) : videoSettled hashtags product s2 v :=
  h.imp (any_mono_storeLe hle _) id

theorem collectVideoStep_step (product : Product) (hashtags : List String)
    (st : CollectorState) (pc tot : Nat) (v : Video) :
    storeLe st (collectVideoStep product hashtags (st, pc, tot) v).1 ∧
    (pc < MAX_REVIEWS_PER_PRODUCT →
      videoSettled hashtags product (collectVideoStep product hashtags (st, pc, tot) v).1 v) ∧
    ((collectVideoStep product hashtags (st, pc, tot) v).2.1 = pc ∨
      (collectVideoStep product hashtags (st, pc, tot) v).2.1 = pc + 1) := by
  unfold collectVideoStep
  by_cases h1 : pc ≥ MAX_REVIEWS_PER_PRODUCT
  · simp only [if_pos h1]
    exact ⟨storeLe_refl st, fun hlt => absurd h1 (by omega), Or.inl (by trivial)⟩
  · simp only [if_neg h1]
    by_cases h2 : st.snsReviews.any
        (fun r => r.platform == "YOUTUBE" && r.externalId == v.videoId) = true
    · simp only [if_pos h2]
      exact ⟨storeLe_refl st, fun _ => Or.inl h2, Or.inl (by trivial)⟩
    · simp only [if_neg h2]
      cases hm : youtubeMatchResult hashtags (jsToLower (v.title ++ " " ++ v.description))
          (jsToLower (jsTrim product.productName)) with
      | none => exact ⟨storeLe_refl st, fun _ => Or.inr hm, Or.inl rfl⟩
      | some score =>
        refine ⟨⟨_, rfl⟩, fun _ => Or.inl ?_, Or.inr rfl⟩
        rw [List.any_append]
        simp

theorem collectVideoStep_noop (product : Product) (hashtags : List String)
    (st : CollectorState) (pc tot : Nat) (v : Video)
    (h : videoSettled hashtags product st v) :
    collectVideoStep product hashtags (st, pc, tot) v = (st, pc, tot) := by
  unfold collectVideoStep
  by_cases h1 : pc ≥ MAX_REVIEWS_PER_PRODUCT
  · simp only [if_pos h1]
  · simp only [if_neg h1]
    by_cases h2 : st.snsReviews.any
        (fun r => r.platform == "YOUTUBE" && r.externalId == v.videoId) = true
    · simp only [if_pos h2]
    · simp only [if_neg h2]
      rcases h with hany | hnone
      · exact absurd hany h2
      · rw [hnone]

theorem yt_fold_phase1 (product : Product) (hashtags : List String) :
    ∀ (videos : List Video) (st : CollectorState) (pc tot : Nat),
    pc + videos.length ≤ MAX_REVIEWS_PER_PRODUCT →
    storeLe st (videos.foldl (collectVideoStep product hashtags) (st, pc, tot)).1 ∧
    ∀ v ∈ videos,
      videoSettled hashtags product
        (videos.foldl (collectVideoStep product hashtags) (st, pc, tot)).1 v := by
  intro videos
  induction videos with
  | nil =>
    intro st pc tot _
    exact ⟨storeLe_refl st, by simp⟩
  | cons v vs ih =>
    intro st pc tot hbound
    have hlt : pc < MAX_REVIEWS_PER_PRODUCT := by
      simp only [List.length_cons] at hbound
      omega
    obtain ⟨hle1, hset1, hpc1⟩ := collectVideoStep_step product hashtags st pc tot v
    set acc1 := collectVideoStep product hashtags (st, pc, tot) v with hacc1
    have hbound2 : acc1.2.1 + vs.length ≤ MAX_REVIEWS_PER_PRODUCT := by
      simp only [List.length_cons] at hbound
      rcases hpc1 with h | h <;> (rw [h]; omega)
    obtain ⟨hle2, hset2⟩ := ih acc1.1 acc1.2.1 acc1.2.2 hbound2
    have heta : (acc1.1, acc1.2.1, acc1.2.2) = acc1 := rfl
    rw [heta] at hle2 hset2
    simp only [List.foldl_cons, ← hacc1]
    refine ⟨storeLe_trans hle1 hle2, ?_⟩
    intro x hx
    rcases List.mem_cons.1 hx with rfl | hxs
    · exact videoSettled_mono hle2 (hset1 hlt)
    · exact hset2 x hxs

theorem yt_fold_phase2 (product : Product) (hashtags : List String) :
    ∀ (videos : List Video) (st : CollectorState) (pc tot : Nat),
    (∀ v ∈ videos, videoSettled hashtags product st v) →
    videos.foldl (collectVideoStep product hashtags) (st, pc, tot) = (st, pc, tot) := by
  intro videos
  induction videos with
  | nil => intro st pc tot _; rfl
  | cons v vs ih =>
    intro st pc tot hset
    simp only [List.foldl_cons]
    rw [collectVideoStep_noop product hashtags st pc tot v (hset v (List.mem_cons_self _ _))]
    exact ih st pc tot (fun x hx => hset x (List.mem_cons_of_mem _ hx))

theorem yt_run_phase1 (decode : String → Option String) (videosOf : Product → List Video) :
    ∀ (prods : List Product) (st : CollectorState) (tot : Nat),
    (∀ p ∈ prods, (videosOf p).length ≤ MAX_REVIEWS_PER_PRODUCT) →
    storeLe st (prods.foldl (collectProductYouTube decode videosOf) (st, tot)).1 ∧
    ∀ p ∈ prods, ∀ v ∈ videosOf p,
      videoSettled (extractHashtagsFromProduct decode p) p
        (prods.foldl (collectProductYouTube decode videosOf) (st, tot)).1 v := by
  intro prods
  induction prods with
  | nil =>
    intro st tot _
    exact ⟨storeLe_refl st, by simp⟩
  | cons p ps ih =>
    intro st tot hbound
    obtain ⟨hle1, hset1⟩ := yt_fold_phase1 p (extractHashtagsFromProduct decode p)
      (videosOf p) st 0 tot (by simpa using hbound p (List.mem_cons_self _ _))
    set acc1 := collectProductYouTube decode videosOf (st, tot) p with hacc1
    have hacc1e : acc1.1 =
        ((videosOf p).foldl
          (collectVideoStep p (extractHashtagsFromProduct decode p)) (st, 0, tot)).1 := rfl
    obtain ⟨hle2, hset2⟩ := ih acc1.1 acc1.2
      (fun q hq => hbound q (List.mem_cons_of_mem _ hq))
    have heta : (acc1.1, acc1.2) = acc1 := rfl
    rw [heta] at hle2 hset2
    have hle1b : storeLe st acc1.1 := by
      rw [hacc1e]
      exact hle1
    simp only [List.foldl_cons, ← hacc1]
    refine ⟨storeLe_trans hle1b hle2, ?_⟩
    intro q hq v hv
    rcases List.mem_cons.1 hq with rfl | hqs
    · refine videoSettled_mono hle2 ?_
      rw [hacc1e]
      exact hset1 v hv
    · exact hset2 q hqs v hv

theorem yt_run_phase2 (decode : String → Option String) (videosOf : Product → List Video) :
    ∀ (prods : List Product) (st : CollectorState) (tot : Nat),
    (∀ p ∈ prods, ∀ v ∈ videosOf p,
      videoSettled (extractHashtagsFromProduct decode p) p st v) →
    prods.foldl (collectProductYouTube decode videosOf) (st, tot) = (st, tot) := by
  intro prods
  induction prods with
  | nil => intro st tot _; rfl
  | cons p ps ih =>
    intro st tot hset
    simp only [List.foldl_cons]
    have hstep : collectProductYouTube decode videosOf (st, tot) p = (st, tot) := by
      have h2 : (videosOf p).foldl
          (collectVideoStep p (extractHashtagsFromProduct decode p)) (st, 0, tot) =
          (st, 0, tot) :=
        yt_fold_phase2 p (extractHashtagsFromProduct decode p) (videosOf p) st 0 tot
          (fun v hv => hset p (List.mem_cons_self _ _) v hv)
      show ((((videosOf p).foldl
          (collectVideoStep p (extractHashtagsFromProduct decode p)) (st, 0, tot))).1,
        (((videosOf p).foldl
          (collectVideoStep p (extractHashtagsFromProduct decode p)) (st, 0, tot))).2.2) =
        (st, tot)
      rw [h2]
    rw [hstep]
    exact ih st tot (fun q hq v hv => hset q (List.mem_cons_of_mem _ hq) v hv)

/-- A step of the YouTube collection fold preserves the store invariant:
every insert is guarded by the duplicate check. -/
theorem collectVideoStep_nodup (product : Product) (hashtags : List String)
    (st : CollectorState) (pc tot : Nat) (v : Video) (h : reviewKeysNodup st) :
    reviewKeysNodup (collectVideoStep product hashtags (st, pc, tot) v).1 := by
  unfold collectVideoStep
  by_cases h1 : pc ≥ MAX_REVIEWS_PER_PRODUCT
  · simpa only [if_pos h1] using h
  · simp only [if_neg h1]
    by_cases h2 : st.snsReviews.any
        (fun r => r.platform == "YOUTUBE" && r.externalId == v.videoId) = true
    · simpa only [if_pos h2] using h
    · simp only [if_neg h2]
      cases hm : youtubeMatchResult hashtags (jsToLower (v.title ++ " " ++ v.description))
          (jsToLower (jsTrim product.productName)) with
      | none => exact h
      | some score =>
        unfold reviewKeysNodup at h ⊢
        rw [List.map_append, List.nodup_append]
        refine ⟨h, List.nodup_singleton _, ?_⟩
        intro a ha hb
        simp only [List.map_cons, List.map_nil, List.mem_singleton] at hb
        subst hb
        rw [List.mem_map] at ha
        obtain ⟨r, hr, hkey⟩ := ha
        apply h2
        rw [List.any_eq_true]
        refine ⟨r, hr, ?_⟩
        rw [Prod.mk.injEq] at hkey
        simp [hkey.1, hkey.2]

theorem yt_fold_nodup (product : Product) (hashtags : List String) :
    ∀ (videos : List Video) (st : CollectorState) (pc tot : Nat),
    reviewKeysNodup st →
    reviewKeysNodup ((videos.foldl (collectVideoStep product hashtags) (st, pc, tot)).1) := by
  intro videos
  induction videos with
  | nil => intro st pc tot h; exact h
  | cons v vs ih =>
    intro st pc tot h
    simp only [List.foldl_cons]
    rcases hstep : collectVideoStep product hashtags (st, pc, tot) v with ⟨st1, pc1, tot1⟩
    have h1 := collectVideoStep_nodup product hashtags st pc tot v h
    rw [hstep] at h1
    exact ih st1 pc1 tot1 h1

theorem yt_run_nodup (decode : String → Option String) (videosOf : Product → List Video) :
    ∀ (prods : List Product) (st : CollectorState) (tot : Nat),
    reviewKeysNodup st →
    reviewKeysNodup ((prods.foldl (collectProductYouTube decode videosOf) (st, tot)).1) := by
  intro prods
  induction prods with
  | nil => intro st tot h; exact h
  | cons p ps ih =>
    intro st tot h
    simp only [List.foldl_cons]
    rcases hstep : collectProductYouTube decode videosOf (st, tot) p with ⟨st1, tot1⟩
    have h1 : reviewKeysNodup st1 := by
      have hall := yt_fold_nodup p (extractHashtagsFromProduct decode p) (videosOf p) st 0 tot h
      have he : (collectProductYouTube decode videosOf (st, tot) p).1 =
          ((videosOf p).foldl
            (collectVideoStep p (extractHashtagsFromProduct decode p)) (st, 0, tot)).1 := rfl
      rw [hstep] at he
      have he2 : st1 = _ := he
      rw [he2]
      exact hall
    exact ih st1 tot1 h1

/-- An Instagram candidate is settled for a product in a given store: it
is either already stored or it scores below the 20-point threshold. -/
def postSettled (hashtags : List String) (product : Product) (st : CollectorState)
    (post : InstaPost) : Prop :=
  st.snsReviews.any (fun r => r.platform == "INSTAGRAM" && r.externalId == post.postId) = true ∨
  calculateMatchScore post product hashtags < 20

theorem postSettled_mono {hashtags : List String} {product : Product}
    {s1 s2 : CollectorState} {post : InstaPost} (hle : storeLe s1 s2)
    (h : postSettled hashtags product s1 post) : postSettled hashtags product s2 post :=
  h.imp (any_mono_storeLe hle _) id

theorem collectPostStep_step (product : Product) (hashtags : List String)
    (st : CollectorState) (pc tot : Nat) (post : InstaPost) :
    storeLe st (collectPostStep product hashtags (st, pc, tot) post).1 ∧
    (pc < MAX_REVIEWS_PER_PRODUCT →
      postSettled hashtags product (collectPostStep product hashtags (st, pc, tot) post).1 post) ∧
    ((collectPostStep product hashtags (st, pc, tot) post).2.1 = pc ∨
      (collectPostStep product hashtags (st, pc, tot) post).2.1 = pc + 1) := by
  unfold collectPostStep
  by_cases h1 : pc ≥ MAX_REVIEWS_PER_PRODUCT
  · simp only [if_pos h1]
    exact ⟨storeLe_refl st, fun hlt => absurd h1 (by omega), Or.inl (by trivial)⟩
  · simp only [if_neg h1]
    by_cases h2 : st.snsReviews.any
        (fun r => r.platform == "INSTAGRAM" && r.externalId == post.postId) = true
    · simp only [if_pos h2]
      exact ⟨storeLe_refl st, fun _ => Or.inl h2, Or.inl (by trivial)⟩
    · simp only [if_neg h2]
      by_cases h3 : calculateMatchScore post product hashtags ≥ 20
      · simp only [if_pos h3]
        refine ⟨⟨_, rfl⟩, fun _ => Or.inl ?_, Or.inr (by trivial)⟩
        rw [List.any_append]
        simp
      · simp only [if_neg h3]
        exact ⟨storeLe_refl st, fun _ => Or.inr (by omega), Or.inl (by trivial)⟩

theorem collectPostStep_noop (product : Product) (hashtags : List String)
    (st : CollectorState) (pc tot : Nat) (post : InstaPost)
    (h : postSettled hashtags product st post) :
    collectPostStep product hashtags (st, pc, tot) post = (st, pc, tot) := by
  unfold collectPostStep
  by_cases h1 : pc ≥ MAX_REVIEWS_PER_PRODUCT
  · simp only [if_pos h1]
  · simp only [if_neg h1]
    by_cases h2 : st.snsReviews.any
        (fun r => r.platform == "INSTAGRAM" && r.externalId == post.postId) = true
    · simp only [if_pos h2]
    · simp only [if_neg h2]
      rcases h with hany | hlt
      · exact absurd hany h2
      · rw [if_neg (by omega)]

theorem collectPostStep_nodup (product : Product) (hashtags : List String)
    (st : CollectorState) (pc tot : Nat) (post : InstaPost) (h : reviewKeysNodup st) :
    reviewKeysNodup (collectPostStep product hashtags (st, pc, tot) post).1 := by
  unfold collectPostStep
  by_cases h1 : pc ≥ MAX_REVIEWS_PER_PRODUCT
  · simpa only [if_pos h1] using h
  · simp only [if_neg h1]
    by_cases h2 : st.snsReviews.any
        (fun r => r.platform == "INSTAGRAM" && r.externalId == post.postId) = true
    · simpa only [if_pos h2] using h
    · simp only [if_neg h2]
      by_cases h3 : calculateMatchScore post product hashtags ≥ 20
      · simp only [if_pos h3]
        unfold reviewKeysNodup at h ⊢
        rw [List.map_append, List.nodup_append]
        refine ⟨h, List.nodup_singleton _, ?_⟩
        intro a ha hb
        simp only [List.map_cons, List.map_nil, List.mem_singleton] at hb
        subst hb
        rw [List.mem_map] at ha
        obtain ⟨r, hr, hkey⟩ := ha
        apply h2
        rw [List.any_eq_true]
        refine ⟨r, hr, ?_⟩
        rw [Prod.mk.injEq] at hkey
        simp [hkey.1, hkey.2]
      · simpa only [if_neg h3] using h

theorem ig_fold_phase1 (product : Product) (hashtags : List String) :
    ∀ (posts : List InstaPost) (st : CollectorState) (pc tot : Nat),
    pc + posts.length ≤ MAX_REVIEWS_PER_PRODUCT →
    storeLe st (posts.foldl (collectPostStep product hashtags) (st, pc, tot)).1 ∧
    ∀ post ∈ posts, postSettled hashtags product
      (posts.foldl (collectPostStep product hashtags) (st, pc, tot)).1 post := by
  intro posts
  induction posts with
  | nil =>
    intro st pc tot _
    exact ⟨storeLe_refl st, by simp⟩
  | cons post ps ih =>
    intro st pc tot hbound
    have hlt : pc < MAX_REVIEWS_PER_PRODUCT := by
      simp only [List.length_cons] at hbound
      omega
    obtain ⟨hle1, hset1, hpc1⟩ := collectPostStep_step product hashtags st pc tot post
    set acc1 := collectPostStep product hashtags (st, pc, tot) post with hacc1
    have hbound2 : acc1.2.1 + ps.length ≤ MAX_REVIEWS_PER_PRODUCT := by
      simp only [List.length_cons] at hbound
      rcases hpc1 with h | h <;> (rw [h]; omega)
    obtain ⟨hle2, hset2⟩ := ih acc1.1 acc1.2.1 acc1.2.2 hbound2
    have heta : (acc1.1, acc1.2.1, acc1.2.2) = acc1 := rfl
    rw [heta] at hle2 hset2
    simp only [List.foldl_cons, ← hacc1]
    refine ⟨storeLe_trans hle1 hle2, ?_⟩
    intro x hx
    rcases List.mem_cons.1 hx with rfl | hxs
    · exact postSettled_mono hle2 (hset1 hlt)
    · exact hset2 x hxs

theorem ig_fold_phase2 (product : Product) (hashtags : List String) :
    ∀ (posts : List InstaPost) (st : CollectorState) (pc tot : Nat),
    (∀ post ∈ posts, postSettled hashtags product st post) →
    posts.foldl (collectPostStep product hashtags) (st, pc, tot) = (st, pc, tot) := by
  intro posts
  induction posts with
  | nil => intro st pc tot _; rfl
  | cons post ps ih =>
    intro st pc tot hset
    simp only [List.foldl_cons]
    rw [collectPostStep_noop product hashtags st pc tot post
      (hset post (List.mem_cons_self _ _))]
    exact ih st pc tot (fun x hx => hset x (List.mem_cons_of_mem _ hx))

theorem ig_fold_nodup (product : Product) (hashtags : List String) :
    ∀ (posts : List InstaPost) (st : CollectorState) (pc tot : Nat),
    reviewKeysNodup st →
    reviewKeysNodup ((posts.foldl (collectPostStep product hashtags) (st, pc, tot)).1) := by
  intro posts
  induction posts with
  | nil => intro st pc tot h; exact h
  | cons post ps ih =>
    intro st pc tot h
    simp only [List.foldl_cons]
    rcases hstep : collectPostStep product hashtags (st, pc, tot) post with ⟨st1, pc1, tot1⟩
    have h1 := collectPostStep_nodup product hashtags st pc tot post h
    rw [hstep] at h1
    exact ih st1 pc1 tot1 h1

theorem ig_run_phase1 (decode : String → Option String) (postsOf : Product → List InstaPost) :
    ∀ (prods : List Product) (st : CollectorState) (tot : Nat),
    (∀ p ∈ prods, (postsOf p).length ≤ MAX_REVIEWS_PER_PRODUCT) →
    storeLe st (prods.foldl (collectProductInstagram decode postsOf) (st, tot)).1 ∧
    ∀ p ∈ prods, ∀ post ∈ postsOf p,
      postSettled (extractHashtagsFromProduct decode p) p
        (prods.foldl (collectProductInstagram decode postsOf) (st, tot)).1 post := by
  intro prods
  induction prods with
  | nil =>
    intro st tot _
    exact ⟨storeLe_refl st, by simp⟩
  | cons p ps ih =>
    intro st tot hbound
    obtain ⟨hle1, hset1⟩ := ig_fold_phase1 p (extractHashtagsFromProduct decode p)
      (postsOf p) st 0 tot (by simpa using hbound p (List.mem_cons_self _ _))
    set acc1 := collectProductInstagram decode postsOf (st, tot) p with hacc1
    have hacc1e : acc1.1 =
        ((postsOf p).foldl
          (collectPostStep p (extractHashtagsFromProduct decode p)) (st, 0, tot)).1 := rfl
    obtain ⟨hle2, hset2⟩ := ih acc1.1 acc1.2
      (fun q hq => hbound q (List.mem_cons_of_mem _ hq))
    have heta : (acc1.1, acc1.2) = acc1 := rfl
    rw [heta] at hle2 hset2
    have hle1b : storeLe st acc1.1 := by
      rw [hacc1e]
      exact hle1
    simp only [List.foldl_cons, ← hacc1]
    refine ⟨storeLe_trans hle1b hle2, ?_⟩
    intro q hq post hpost
    rcases List.mem_cons.1 hq with rfl | hqs
    · refine postSettled_mono hle2 ?_
      rw [hacc1e]
      exact hset1 post hpost
    · exact hset2 q hqs post hpost

theorem ig_run_phase2 (decode : String → Option String) (postsOf : Product → List InstaPost) :
    ∀ (prods : List Product) (st : CollectorState) (tot : Nat),
    (∀ p ∈ prods, ∀ post ∈ postsOf p,
      postSettled (extractHashtagsFromProduct decode p) p st post) →
    prods.foldl (collectProductInstagram decode postsOf) (st, tot) = (st, tot) := by
  intro prods
  induction prods with
  | nil => intro st tot _; rfl
  | cons p ps ih =>
    intro st tot hset
    simp only [List.foldl_cons]
    have hstep : collectProductInstagram decode postsOf (st, tot) p = (st, tot) := by
      have h2 : (postsOf p).foldl
          (collectPostStep p (extractHashtagsFromProduct decode p)) (st, 0, tot) =
          (st, 0, tot) :=
        ig_fold_phase2 p (extractHashtagsFromProduct decode p) (postsOf p) st 0 tot
          (fun post hpost => hset p (List.mem_cons_self _ _) post hpost)
      show ((((postsOf p).foldl
          (collectPostStep p (extractHashtagsFromProduct decode p)) (st, 0, tot))).1,
        (((postsOf p).foldl
          (collectPostStep p (extractHashtagsFromProduct decode p)) (st, 0, tot))).2.2) =
        (st, tot)
      rw [h2]
    rw [hstep]
    exact ih st tot (fun q hq post hpost => hset q (List.mem_cons_of_mem _ hq) post hpost)

theorem ig_run_nodup (decode : String → Option String) (postsOf : Product → List InstaPost) :
    ∀ (prods : List Product) (st : CollectorState) (tot : Nat),
    reviewKeysNodup st →
    reviewKeysNodup ((prods.foldl (collectProductInstagram decode postsOf) (st, tot)).1) := by
  intro prods
  induction prods with
  | nil => intro st tot h; exact h
  | cons p ps ih =>
    intro st tot h
    simp only [List.foldl_cons]
    rcases hstep : collectProductInstagram decode postsOf (st, tot) p with ⟨st1, tot1⟩
    have h1 : reviewKeysNodup st1 := by
      have hall := ig_fold_nodup p (extractHashtagsFromProduct decode p) (postsOf p) st 0 tot h
      have he : (collectProductInstagram decode postsOf (st, tot) p).1 =
          ((postsOf p).foldl
            (collectPostStep p (extractHashtagsFromProduct decode p)) (st, 0, tot)).1 := rfl
      rw [hstep] at he
      have he2 : st1 = _ := he
      rw [he2]
      exact hall
    exact ih st1 tot1 h1

theorem collectYouTubeReviews_nodup (decode : String → Option String)
    (videosOf : Product → List Video) (prods : List Product) (st : CollectorState)
    (h : reviewKeysNodup st) :
    reviewKeysNodup (collectYouTubeReviews decode videosOf prods st).1 :=
  yt_run_nodup decode videosOf (prods.filter (fun p => p.productSaleStatus == true)) st 0 h

theorem collectYouTubeReviews_idem (decode : String → Option String)
    (videosOf : Product → List Video) (prods : List Product) (st : CollectorState)
    (hb : ∀ p ∈ prods, (videosOf p).length ≤ MAX_REVIEWS_PER_PRODUCT) :
    collectYouTubeReviews decode videosOf prods
      (collectYouTubeReviews decode videosOf prods st).1 =
    ((collectYouTubeReviews decode videosOf prods st).1, 0) := by
  obtain ⟨_, hset⟩ := yt_run_phase1 decode videosOf
    (prods.filter (fun p => p.productSaleStatus == true)) st 0
    (fun p hp => hb p (List.mem_of_mem_filter hp))
  exact yt_run_phase2 decode videosOf
    (prods.filter (fun p => p.productSaleStatus == true))
    (collectYouTubeReviews decode videosOf prods st).1 0 hset

theorem collectInstagramReviews_nodup (connected : Bool) (decode : String → Option String)
    (postsOf : Product → List InstaPost) (prods : List Product) (st : CollectorState)
    (h : reviewKeysNodup st) :
    reviewKeysNodup (collectInstagramReviews connected decode postsOf prods st).1 := by
  cases connected with
  | false => exact h
  | true =>
    exact ig_run_nodup decode postsOf
      (prods.filter (fun p => p.productSaleStatus == true)) st 0 h

theorem collectInstagramReviews_idem (connected : Bool) (decode : String → Option String)
    (postsOf : Product → List InstaPost) (prods : List Product) (st : CollectorState)
    (hb : ∀ p ∈ prods, (postsOf p).length ≤ MAX_REVIEWS_PER_PRODUCT) :
    collectInstagramReviews connected decode postsOf prods
      (collectInstagramReviews connected decode postsOf prods st).1 =
    ((collectInstagramReviews connected decode postsOf prods st).1, 0) := by
  cases connected with
  | false => rfl
  | true =>
    obtain ⟨_, hset⟩ := ig_run_phase1 decode postsOf
      (prods.filter (fun p => p.productSaleStatus == true)) st 0
      (fun p hp => hb p (List.mem_of_mem_filter hp))
    exact ig_run_phase2 decode postsOf
      (prods.filter (fun p => p.productSaleStatus == true))
      (collectInstagramReviews true decode postsOf prods st).1 0 hset

def c2Products : List Product :=
  [{ productCode := "P1", productName := "cica", productSaleStatus := true, detailInfo := none }]

def c2Videos (_ : Product) : List Video :=
  (List.range 51).map
    (fun i => { videoId := "v" ++ toString i, title := "cica", description := "" })

set_option maxRecDepth 10000 in
/-- C2, counterexample to the original claim: with 51 YouTube videos all
matching one product, the first run of `collectYouTubeReviews` stores only
50 of them (the per-product cap `MAX_REVIEWS_PER_PRODUCT` breaks the loop)
and a second run against the unchanged external result set inserts 1 more
review, not 0. -/
theorem c2_counterexample_cap_breaks_idempotency :
    (collectYouTubeReviews (fun _ => none) c2Videos c2Products
      { snsReviews := [], nextReviewId := 100 }).2 = 50 ∧
    (collectYouTubeReviews (fun _ => none) c2Videos c2Products
      (collectYouTubeReviews (fun _ => none) c2Videos c2Products
        { snsReviews := [], nextReviewId := 100 }).1).2 = 1 := by
  constructor <;> decide

/-- C2 (amended): collection never inserts a review whose
`(platform, externalId)` pair already occurs in the store, so the
uniqueness invariant is preserved unconditionally by both collectors; and
provided no product's external result set exceeds the 50-review
per-product cap, re-running either collector against the unchanged
external result set leaves the store unchanged and inserts exactly 0 new
reviews.  (Without the cap proviso idempotency fails, see the
counterexample.) -/
theorem c2_collection_dedup_and_idempotent
    (connected : Bool) (decode : String → Option String)
    (videosOf : Product → List Video) (postsOf : Product → List InstaPost)
    (prods : List Product) (st : CollectorState)
    (hinv : reviewKeysNodup st)
    (hby : ∀ p ∈ prods, (videosOf p).length ≤ MAX_REVIEWS_PER_PRODUCT)
    (hbi : ∀ p ∈ prods, (postsOf p).length ≤ MAX_REVIEWS_PER_PRODUCT) :
    reviewKeysNodup (collectYouTubeReviews decode videosOf prods st).1 ∧
    reviewKeysNodup (collectInstagramReviews connected decode postsOf prods st).1 ∧
    collectYouTubeReviews decode videosOf prods
      (collectYouTubeReviews decode videosOf prods st).1 =
      ((collectYouTubeReviews decode videosOf prods st).1, 0) ∧
    collectInstagramReviews connected decode postsOf prods
      (collectInstagramReviews connected decode postsOf prods st).1 =
      ((collectInstagramReviews connected decode postsOf prods st).1, 0) :=
  ⟨collectYouTubeReviews_nodup decode videosOf prods st hinv,
   collectInstagramReviews_nodup connected decode postsOf prods st hinv,
   collectYouTubeReviews_idem decode videosOf prods st hby,
   collectInstagramReviews_idem connected decode postsOf prods st hbi⟩

def c2wVideosOf (_ : Product) : List Video :=
  [{ videoId := "w1", title := "cica", description := "" }]

def c2wPostsOf (_ : Product) : List InstaPost :=
  [{ postId := "g1", caption := "#cica review", username := "u" }]

def c2wState : CollectorState := { snsReviews := [], nextReviewId := 0 }

theorem c2_collection_dedup_and_idempotent_witness :
    reviewKeysNodup c2wState ∧
    (∀ p ∈ c2Products, (c2wVideosOf p).length ≤ MAX_REVIEWS_PER_PRODUCT) ∧
    (∀ p ∈ c2Products, (c2wPostsOf p).length ≤ MAX_REVIEWS_PER_PRODUCT) ∧
    (reviewKeysNodup (collectYouTubeReviews (fun _ => none) c2wVideosOf c2Products c2wState).1 ∧
     reviewKeysNodup
       (collectInstagramReviews true (fun _ => none) c2wPostsOf c2Products c2wState).1 ∧
     collectYouTubeReviews (fun _ => none) c2wVideosOf c2Products
       (collectYouTubeReviews (fun _ => none) c2wVideosOf c2Products c2wState).1 =
       ((collectYouTubeReviews (fun _ => none) c2wVideosOf c2Products c2wState).1, 0) ∧
     collectInstagramReviews true (fun _ => none) c2wPostsOf c2Products
       (collectInstagramReviews true (fun _ => none) c2wPostsOf c2Products c2wState).1 =
       ((collectInstagramReviews true (fun _ => none) c2wPostsOf c2Products c2wState).1, 0)) :=
  ⟨by unfold reviewKeysNodup; decide, by decide, by decide,
   c2_collection_dedup_and_idempotent true (fun _ => none) c2wVideosOf c2wPostsOf
     c2Products c2wState (by unfold reviewKeysNodup; decide) (by decide) (by decide)⟩

end DatepalmBay
